import Mathlib

/-!
# Fainder — verification of the ingestion-to-retrieval pipeline

Shallow embedding of the core of the `fainder` document upload-and-search
application:

* the SQL similarity-search functions `similarity_search` and
  `enhanced_similarity_search` (migrations/002_disable_rls.sql),
* the tag upsert functions `get_or_create_tag` / `add_document_tag`
  (migrations/002_disable_rls.sql),
* the server actions `uploadDocuments` and `searchDocuments`
  (src/lib/storage-debug.ts),
* the background processors `processImageAsync`, `processTextFileAsync`,
  `processDocumentAsync` and the chunk-persistence loop
  `createChunksForDocument` (src/lib/storage-debug.ts).

External capabilities (OpenAI embedding/vision calls, the Supabase transport,
`JSON.parse`) are modelled as parameters: an embedding is an opaque vector and
the pgvector cosine-distance operator `<=>` is an explicit function argument;
every awaited external call is an explicit step that either succeeds or
throws.  Timestamps are abstract naturals.  JSONB metadata blobs are not
modelled field-by-field where no claim depends on them.
-/

namespace Fainder

/-- Embedding vectors (pgvector `VECTOR(1536)`).  The numeric content is
irrelevant to the claims; the cosine-distance operator `<=>` is passed in as a
function `dist : Emb → Emb → Rat`. -/
abbrev Emb := List Rat

/-- Document lifecycle status — the `documents.status` CHECK constraint of
migrations/001_create_fainder_langchain_schema_no_rls.sql. -/
inductive Status where
  | uploaded
  | processing
  | chunking
  | embedding
  | processed
  | error
deriving DecidableEq, Repr

/-! ## The `documents` / `document_chunks` rows visible to the SQL search
functions (only the columns those functions read or return). -/

/-- A `documents` row as read by the SQL search functions. -/
structure DocRow where
  id : Nat
  user_id : Nat
  title : Option String
  original_filename : String
  public_url : Option String
  content_type : Option String
  auto_tags : Option (List String)
  created_at : Nat
deriving DecidableEq, Repr

/-- A `document_chunks` row as read by the SQL search functions. -/
structure ChunkRow where
  id : Nat
  document_id : Nat
  user_id : Nat
  chunk_index : Nat
  chunk_text : String
  embedding : Option Emb
deriving DecidableEq, Repr

/-- The table state the SQL search functions query. -/
structure SearchDB where
  documents : List DocRow
  chunks : List ChunkRow
deriving Repr

/-- Embedding of `FROM document_chunks dc JOIN documents d ON dc.document_id = d.id`
(shared FROM clause of `similarity_search` and `enhanced_similarity_search`). -/
def joinRows (db : SearchDB) : List (ChunkRow × DocRow) :=
  db.chunks.flatMap fun dc =>
    (db.documents.filter fun d => dc.document_id == d.id).map fun d => (dc, d)

/-- The sort key `dc.embedding <=> query_embedding` of the ORDER BY clause.
Rows reaching the ORDER BY in either SQL function have a non-NULL embedding
(the WHERE clause requires it); the `none` branch is unreachable there. -/
def rowDist (dist : Emb → Emb → Rat) (qe : Emb) (p : ChunkRow × DocRow) : Rat :=
  match p.1.embedding with
  | some e => dist e qe
  | none => 0

/-- One returned row of the two SQL search functions (their RETURNS TABLE). -/
structure SearchHit where
  chunk_id : Nat
  document_id : Nat
  chunk_text : String
  similarity : Rat
  document_title : String
  document_filename : String
  public_url : Option String
  content_type : Option String
  auto_tags : Option (List String)
  created_at : Nat
deriving DecidableEq, Repr

/-- The SELECT list shared by both SQL search functions:
`similarity = (1 - (dc.embedding <=> query_embedding))`,
`document_title = COALESCE(d.title, d.original_filename)`. -/
def toHit (dist : Emb → Emb → Rat) (qe : Emb) (p : ChunkRow × DocRow) : SearchHit :=
  { chunk_id := p.1.id
    document_id := p.1.document_id
    chunk_text := p.1.chunk_text
    similarity := 1 - rowDist dist qe p
    document_title := p.2.title.getD p.2.original_filename
    document_filename := p.2.original_filename
    public_url := p.2.public_url
    content_type := p.2.content_type
    auto_tags := p.2.auto_tags
    created_at := p.2.created_at }

/-- WHERE clause of the basic `similarity_search`
(migrations/002_disable_rls.sql, lines 196–199):
`dc.user_id = user_id_param AND dc.embedding IS NOT NULL AND
 (1 - (dc.embedding <=> query_embedding)) > similarity_threshold`.
A NULL embedding makes the similarity comparison NULL in SQL, so the row is
excluded; the `none` branch returns `false` accordingly. -/
def basicWhere (dist : Emb → Emb → Rat) (qe : Emb) (uid : Nat) (thr : Rat)
    (p : ChunkRow × DocRow) : Bool :=
  p.1.user_id == uid &&
    (match p.1.embedding with
     | some e => decide (1 - dist e qe > thr)
     | none => false)

/-- Embedding of `similarity_search(query_embedding, user_id_param, similarity_threshold,
max_results)` — migrations/002_disable_rls.sql lines 161–203. -/
def similarity_search (dist : Emb → Emb → Rat) (db : SearchDB) (qe : Emb)
    (uid : Nat) (thr : Rat) (lim : Nat) : List SearchHit :=
  ((((joinRows db).filter (basicWhere dist qe uid thr)).mergeSort
      (fun a b => decide (rowDist dist qe a ≤ rowDist dist qe b))).take lim).map
    (toHit dist qe)

/-- Embedding of `(content_types IS NULL OR d.content_type = ANY(content_types))`:
when the filter is present, a document with NULL `content_type` compares NULL
and is excluded. -/
def contentTypeOk (cts : Option (List String)) (d : DocRow) : Bool :=
  match cts with
  | none => true
  | some l =>
    match d.content_type with
    | some ct => l.contains ct
    | none => false

/-- Embedding of `(required_tags IS NULL OR d.auto_tags && required_tags)`: the pgvector
array-overlap operator; a NULL `auto_tags` array compares NULL and the row is
excluded when the filter is present. -/
def tagsOverlapOk (req : Option (List String)) (d : DocRow) : Bool :=
  match req with
  | none => true
  | some l =>
    match d.auto_tags with
    | some ts => ts.any fun t => l.contains t
    | none => false

/-- WHERE clause of `enhanced_similarity_search`
(migrations/002_disable_rls.sql, lines 243–248). -/
def enhancedWhere (dist : Emb → Emb → Rat) (qe : Emb) (uid : Nat) (thr : Rat)
    (cts req : Option (List String)) (p : ChunkRow × DocRow) : Bool :=
  p.1.user_id == uid &&
    (match p.1.embedding with
     | some e => decide (1 - dist e qe > thr)
     | none => false) &&
    contentTypeOk cts p.2 && tagsOverlapOk req p.2

/-- Embedding of `enhanced_similarity_search(query_embedding, user_id_param,
similarity_threshold, max_results, content_types, required_tags)` —
migrations/002_disable_rls.sql lines 206–252. -/
def enhanced_similarity_search (dist : Emb → Emb → Rat) (db : SearchDB)
    (qe : Emb) (uid : Nat) (thr : Rat) (lim : Nat)
    (cts req : Option (List String)) : List SearchHit :=
  ((((joinRows db).filter (enhancedWhere dist qe uid thr cts req)).mergeSort
      (fun a b => decide (rowDist dist qe a ≤ rowDist dist qe b))).take lim).map
    (toHit dist qe)

/-! ## Tag tables and upsert functions (migrations/002_disable_rls.sql) -/

/-- Embedding of `LOWER(...)` of the SQL functions / JavaScript `toLowerCase()` (ASCII
case folding; tag names in this pipeline are ASCII). -/
def jsToLowerCase (s : String) : String := String.mk (s.data.map Char.toLower)

/-- A `tags` row (`name` has a UNIQUE constraint). -/
structure TagRow where
  id : Nat
  name : String
  category : Option String
  description : Option String
deriving DecidableEq, Repr

/-- A `document_tags` row (`UNIQUE(document_id, tag_id)`). -/
structure DocTagRow where
  document_id : Nat
  tag_id : Nat
  confidence : Rat
  source : String
deriving DecidableEq, Repr

/-- The two tag tables.  `nextTagId` models the UUID generator: it supplies a
primary key not already present in `tags`. -/
structure TagDB where
  tags : List TagRow
  documentTags : List DocTagRow
  nextTagId : Nat
deriving Repr

/-- Embedding of `get_or_create_tag(tag_name, tag_category, tag_description)` —
migrations/002_disable_rls.sql lines 97–118.  Looks the tag up by
`name = LOWER(tag_name)`; if absent, inserts a row with the lower-cased name
and returns the fresh id. -/
def get_or_create_tag (tdb : TagDB) (tagName : String)
    (tagCategory tagDescription : Option String) : Nat × TagDB :=
  match tdb.tags.find? (fun t => t.name == jsToLowerCase tagName) with
  | some t => (t.id, tdb)
  | none =>
    (tdb.nextTagId,
     { tdb with
        tags := tdb.tags ++
          [{ id := tdb.nextTagId, name := jsToLowerCase tagName,
             category := tagCategory, description := tagDescription }]
        nextTagId := tdb.nextTagId + 1 })

/-- Embedding of `add_document_tag(doc_id, tag_name, tag_confidence, tag_source)` —
migrations/002_disable_rls.sql lines 121–142.  Gets or creates the tag, then
inserts the `document_tags` row; `ON CONFLICT (document_id, tag_id) DO UPDATE`
sets `confidence = GREATEST(existing, new)` and keeps the new source exactly
when the new confidence is strictly greater than the existing one. -/
def add_document_tag (tdb : TagDB) (docId : Nat) (tagName : String)
    (tagConfidence : Rat) (tagSource : String) : TagDB :=
  let r := get_or_create_tag tdb tagName none none
  let tagId := r.1
  let tdb1 := r.2
  if tdb1.documentTags.any fun dt => dt.document_id == docId && dt.tag_id == tagId then
    { tdb1 with
        documentTags := tdb1.documentTags.map fun dt =>
          if dt.document_id == docId && dt.tag_id == tagId then
            { dt with
                confidence := max dt.confidence tagConfidence
                source := if tagConfidence > dt.confidence then tagSource else dt.source }
          else dt }
  else
    { tdb1 with
        documentTags := tdb1.documentTags ++
          [{ document_id := docId, tag_id := tagId,
             confidence := tagConfidence, source := tagSource }] }

/-! ## The upload server action `uploadDocuments`
(src/lib/storage-debug.ts lines 186–317) and the client-side size gate
`handleFileSelect` (src/components/file-upload.tsx lines 95–113). -/

/-- A `File` as the upload path reads it: `name`, MIME `type`, `size` and the
text content (used later by the text processor). -/
structure UploadFile where
  name : String
  mime : String
  size : Nat
  content : String
deriving DecidableEq, Repr

/-- Embedding of `file.type.startsWith('image/')`. -/
def isImageFile (f : UploadFile) : Bool := f.mime.startsWith "image/"

/-- Embedding of `file.type === 'text/plain'`. -/
def isTextFile (f : UploadFile) : Bool := f.mime == "text/plain"

/-- Embedding of `fileCategory = isImage ? 'image' : isText ? 'text' : 'document'`. -/
def fileCategory (f : UploadFile) : String :=
  if isImageFile f then "image" else if isTextFile f then "text" else "document"

/-- Embedding of `file.name.replace(/[^a-zA-Z0-9.-]/g, '_')`. -/
def sanitizeName (s : String) : String :=
  String.mk (s.data.map fun c =>
    if c.isAlphanum || c == '.' || c == '-' then c else '_')

/-- The storage object key `` `${Date.now()}-${sanitized}` ``. -/
def storageKey (now : Nat) (f : UploadFile) : String :=
  toString now ++ "-" ++ sanitizeName f.name

/-- A `documents` row as created by `uploadDocuments` (the insert at
src/lib/storage-debug.ts lines 256–277; JSONB `processing_metadata` is kept as
its three boolean/string components). -/
structure CreatedDoc where
  id : Nat
  user_id : String
  filename : String
  original_filename : String
  storage_path : String
  public_url : String
  file_type : String
  file_size : Nat
  mime_type : String
  status : Status
  meta_is_image : Bool
  meta_requires_ocr : Bool
  meta_original_type : String
deriving DecidableEq, Repr

/-- A dispatched background-processing task: which processor was started for
which document (`processImageAsync` / `processTextFileAsync` /
`processDocumentAsync`). -/
structure Task where
  doc_id : Nat
  kind : String
deriving DecidableEq, Repr

/-- The externally observable effects of the upload path: stored blobs,
created `documents` rows, and dispatched background tasks. -/
structure UploadStore where
  blobs : List String
  documents : List CreatedDoc
  tasks : List Task
deriving Repr

/-- The value `uploadDocuments` resolves with (`UploadResponse`):
on success, `data` carries only `uploadResults[0]` and a
`processing_started` flag. -/
structure UploadResponse where
  success : Bool
  document? : Option CreatedDoc
  processing_started : Bool
  error : Option String
deriving Repr

/-- Per-file outcome of the two awaited Supabase calls inside the upload loop
(`storage.upload` and the `documents` insert): `none` = success,
`some msg` = the call fails with that message. -/
structure UploadOutcomes where
  storageErr : UploadFile → Option String
  dbErr : UploadFile → Option String

/-- The `documents` row inserted for one file (src/lib/storage-debug.ts lines
256–277); `nDocs` models the generated primary key (a key unused so far). -/
def uploadDoc (uid : String) (now nDocs : Nat) (f : UploadFile) : CreatedDoc :=
  { id := nDocs
    user_id := uid
    filename := storageKey now f
    original_filename := f.name
    storage_path := storageKey now f
    public_url := storageKey now f
    file_type := fileCategory f
    file_size := f.size
    mime_type := f.mime
    status := .uploaded
    meta_is_image := isImageFile f
    meta_requires_ocr := isImageFile f
    meta_original_type := f.mime }

/-- The background task dispatched for one file (lines 287–295):
`processImageAsync` / `processTextFileAsync` / `processDocumentAsync`. -/
def uploadTask (nDocs : Nat) (f : UploadFile) : Task :=
  { doc_id := nDocs
    kind := if isImageFile f then "image"
            else if isTextFile f then "text" else "document" }

/-- The `for (const file of validatedData.files)` loop of `uploadDocuments`
(src/lib/storage-debug.ts lines 215–295).  Each iteration uploads the blob,
inserts the `documents` row with `status = 'uploaded'`, and dispatches the
type-appropriate background processor.  A failing call throws, which aborts
the loop but keeps the effects of the earlier iterations. -/
def uploadLoop (oc : UploadOutcomes) (uid : String) (now : Nat) :
    List UploadFile → UploadStore → List CreatedDoc →
    UploadStore × Except String (List CreatedDoc)
  | [], st, acc => (st, .ok acc)
  | f :: rest, st, acc =>
    match oc.storageErr f with
    | some e => (st, .error ("Storage upload failed: " ++ e))
    | none =>
      let st1 := { st with blobs := st.blobs ++ [storageKey now f] }
      match oc.dbErr f with
      | some e => (st1, .error ("Database insert failed: " ++ e))
      | none =>
        let doc := uploadDoc uid now st1.documents.length f
        let task := uploadTask st1.documents.length f
        let st2 := { st1 with
                      documents := st1.documents ++ [doc]
                      tasks := st1.tasks ++ [task] }
        uploadLoop oc uid now rest st2 (acc ++ [doc])

/-- Embedding of `uploadDocuments(formData)` — src/lib/storage-debug.ts lines 186–317.
`userId` is `formData.get('userId')`: `none` models a missing field and the
empty string is likewise falsy, so both throw `'User ID is required'`; an
empty file list throws `'No files provided'` first.  Every throw is caught by
the surrounding try/catch and surfaced as `{success: false, error: message}`.
On success the response data carries only the first created document. -/
def uploadDocuments (files : List UploadFile) (userId : Option String)
    (oc : UploadOutcomes) (now : Nat) (st : UploadStore) :
    UploadResponse × UploadStore :=
  if files.isEmpty then
    ({ success := false, document? := none, processing_started := false,
       error := some "No files provided" }, st)
  else if userId = none ∨ userId = some "" then
    ({ success := false, document? := none, processing_started := false,
       error := some "User ID is required" }, st)
  else
    match uploadLoop oc (userId.getD "") now files st [] with
    | (st', .ok results) =>
      ({ success := true, document? := results.head?, processing_started := true,
         error := none }, st')
    | (st', .error e) =>
      ({ success := false, document? := none, processing_started := false,
         error := some e }, st')

/-- Embedding of `maxSize = 10 * 1024 * 1024` (src/components/file-upload.tsx line 102). -/
def maxUploadSize : Nat := 10 * 1024 * 1024

/-- The alert text `` `File ${file.name} is too large. Maximum size is 10MB.` ``. -/
def tooLargeMsg (f : UploadFile) : String :=
  "File " ++ f.name ++ " is too large. Maximum size is 10MB."

/-- Embedding of `handleFileSelect` (src/components/file-upload.tsx lines 95–113): each
oversized file raises an alert and is dropped; the remaining files are passed
on to the upload.  Returns (validFiles, alerts). -/
def handleFileSelect (selected : List UploadFile) : List UploadFile × List String :=
  (selected.filter (fun f => !(decide (f.size > maxUploadSize))),
   (selected.filter (fun f => decide (f.size > maxUploadSize))).map tooLargeMsg)

/-- The client-side upload flow: size-gate the selection, then invoke the
`uploadDocuments` server action only when at least one valid file remains
(`if (validFiles.length > 0) uploadFile(validFiles)`). -/
def clientUpload (selected : List UploadFile) (userId : Option String)
    (oc : UploadOutcomes) (now : Nat) (st : UploadStore) :
    Option UploadResponse × UploadStore × List String :=
  let gated := handleFileSelect selected
  if gated.1.isEmpty then (none, st, gated.2)
  else
    let r := uploadDocuments gated.1 userId oc now st
    (some r.1, r.2, gated.2)

/-! ## JavaScript string primitives used by the processors -/

/-- The character class `\s` of the JavaScript regexes / `String.trim` /
`String.split(/\s+/)` (ASCII part; the exotic Unicode spaces never occur in
the strings the pipeline builds). -/
def jsWhitespace (c : Char) : Bool :=
  c == ' ' || c == '\t' || c == '\n' || c == '\r' || c == '\x0b' || c == '\x0c'

/-- JavaScript `String.prototype.trim()`. -/
def jsTrim (s : String) : String :=
  String.mk (((s.data.dropWhile jsWhitespace).reverse.dropWhile jsWhitespace).reverse)

/-- JavaScript `s.split(/\s+/)`: segments between maximal whitespace runs,
keeping the empty edge segments exactly as the JS engine does
(`" a ".split(/\s+/) = ["", "a", ""]`, `"".split(/\s+/) = [""]`). -/
def jsSplitWs : List Char → List (List Char)
  | [] => [[]]
  | c :: rest =>
    if jsWhitespace c then
      [] :: jsSplitWs (rest.dropWhile jsWhitespace)
    else
      match jsSplitWs rest with
      | s :: ss => (c :: s) :: ss
      | [] => [[c]]
termination_by l => l.length
decreasing_by
  · simp only [List.length_cons]
    exact Nat.lt_succ_of_le (List.dropWhile_sublist jsWhitespace).length_le
  · simp [Nat.lt_succ_self]

/-- Embedding of `text.split(/\s+/).length` — the `word_count` computation. -/
def jsWordCount (s : String) : Nat := (jsSplitWs s.data).length

/-- Case-insensitive prefix test (the `i` flag of the section regex). -/
def startsWithCI : List Char → List Char → Bool
  | [], _ => true
  | _ :: _, [] => false
  | p :: ps, c :: cs => (p.toLower == c.toLower) && startsWithCI ps cs

/-- Index of the first case-insensitive occurrence of `pat`. -/
def findCI (pat : List Char) : List Char → Option Nat
  | [] => if startsWithCI pat [] then some 0 else none
  | c :: rest =>
    if startsWithCI pat (c :: rest) then some 0
    else (findCI pat rest).map (· + 1)

/-- Does `\*\*[A-Z\s]+:\*\*` (with the `i` flag) match at the head of `s`?
`:` is outside the class, so the greedy `[A-Z\s]+` run must be followed
directly by `:**`. -/
def isSectionBoundary (s : List Char) : Bool :=
  match s with
  | '*' :: '*' :: rest =>
    let cls : Char → Bool := fun c => c.isAlpha || jsWhitespace c
    let run := rest.takeWhile cls
    !run.isEmpty && ((rest.drop run.length).take 3 == [':', '*', '*'])
  | _ => false

/-- The lazy capture `([\s\S]*?)(?=\*\*[A-Z\s]+:\*\*|$)`: everything up to the
first position where a section boundary starts, or to the end of input. -/
def captureUntilBoundary : List Char → List Char
  | [] => []
  | c :: rest =>
    if isSectionBoundary (c :: rest) then []
    else c :: captureUntilBoundary rest

/-- Embedding of `extractSection(text, sectionName)` — src/lib/storage-debug.ts lines
550–554: match `\*\*name:\*\*\s*([\s\S]*?)(?=\*\*[A-Z\s]+:\*\*|$)` with the
`i` flag and return the trimmed capture, or `''` when the marker is absent. -/
def extractSection (text sectionName : String) : String :=
  let marker := ('*' :: '*' :: sectionName.data) ++ [':', '*', '*']
  match findCI marker text.data with
  | none => ""
  | some i =>
    let afterMarker := text.data.drop (i + marker.length)
    jsTrim (String.mk (captureUntilBoundary (afterMarker.dropWhile jsWhitespace)))

/-- Embedding of `analysisText.match(/\{[\s\S]*\}/)` — the greedy match runs from the
first opening brace to the last closing brace, and exists exactly when a
closing brace occurs strictly after the first opening brace. -/
def jsonMatch (s : String) : Option String :=
  let cs := s.data
  match cs.findIdx? (· == '{'), cs.reverse.findIdx? (· == '}') with
  | some i, some rj =>
    let j := cs.length - 1 - rj
    if i < j then some (String.mk ((cs.drop i).take (j - i + 1))) else none
  | _, _ => none

/-! ## Vision analysis parsing (`processImageAsync`, src/lib/storage-debug.ts
lines 374–396) -/

/-- The parsed vision analysis object.  In the source it is an untyped JSON
value; each field the code reads is optional, and the `Array.isArray` /
`typeof` guards map to the `Option` pattern matches below. -/
structure ImageAnalysis where
  extracted_text : Option String
  main_description : Option String
  objects : Option (List String)
  people : Option (List String)
  scene_type : Option String
  colors : Option (List String)
  mood : Option String
  activities : Option (List String)
  tags : Option (List String)
  categories : Option (List String)
  text_type : Option String
  confidence : Option Rat
  searchable_content : Option String
deriving DecidableEq, Repr

/-- JavaScript `x || d` for an optional string (absent and `''` are falsy). -/
def strOr (o : Option String) (dflt : String) : String :=
  match o with
  | some s => if s = "" then dflt else s
  | none => dflt

/-- JavaScript `x || d` for a string (`''` is falsy). -/
def strOrStr (s dflt : String) : String := if s = "" then dflt else s

/-- JavaScript `x || d` for an optional number (absent and `0` are falsy). -/
def ratOr (o : Option Rat) (dflt : Rat) : Rat :=
  match o with
  | some q => if q = 0 then dflt else q
  | none => dflt

/-- The fallback analysis built when no JSON object can be parsed out of the
vision response (src/lib/storage-debug.ts lines 385–396): regex extraction of
the labelled sections, fixed tags, and confidence 0.7. -/
def fallbackAnalysis (analysisText : String) : ImageAnalysis :=
  { extracted_text := some (extractSection analysisText "extracted_text")
    main_description := some (strOrStr (extractSection analysisText "main_description") analysisText)
    objects := none
    people := none
    scene_type := none
    colors := none
    mood := none
    activities := none
    tags := some ["image", "vision-analyzed"]
    categories := some ["general"]
    text_type := none
    confidence := some (7 / 10 : Rat)
    searchable_content := some analysisText }

/-- The two-tier parse of the vision response (src/lib/storage-debug.ts lines
377–396): take the first well-formed JSON object (`jsonMatch`), run
`JSON.parse` on it — modelled by the capability `parseJson`, `none` meaning
the parse throws — and fall back to `fallbackAnalysis` when either tier
fails. -/
def parseVisionAnalysis (parseJson : String → Option ImageAnalysis)
    (analysisText : String) : ImageAnalysis :=
  match jsonMatch analysisText with
  | some m =>
    match parseJson m with
    | some a => a
    | none => fallbackAnalysis analysisText
  | none => fallbackAnalysis analysisText

/-- The `searchableContent` template string (src/lib/storage-debug.ts lines
399–411), trailing `.trim()` included (note the stray space after the scene
value, faithfully kept). -/
def searchableContentOf (a : ImageAnalysis) : String :=
  jsTrim ("\n" ++ strOr a.extracted_text "" ++
    "\n\nDescription: " ++ strOr a.main_description "" ++
    "\n\nObjects: " ++ (match a.objects with
                        | some l => String.intercalate ", " l
                        | none => "") ++
    "\n\nScene: " ++ strOr a.scene_type "" ++
    " \n\nActivities: " ++ (match a.activities with
                            | some l => String.intercalate ", " l
                            | none => "") ++
    "\n\nTags: " ++ (match a.tags with
                     | some l => String.intercalate ", " l
                     | none => "") ++ "\n")

/-- The document title computed by `processImageAsync` (lines 418–420):
`extracted_text` truncated to 100 characters when truthy, otherwise
`` `Image: ${main_description?.substring(0,100) || 'Analyzed Image'}` ``. -/
def imageTitleOf (a : ImageAnalysis) : String :=
  match a.extracted_text with
  | some et =>
    if et = "" then
      "Image: " ++ (match a.main_description with
                    | some md => strOrStr (md.take 100) "Analyzed Image"
                    | none => "Analyzed Image")
    else et.take 100
  | none =>
    "Image: " ++ (match a.main_description with
                  | some md => strOrStr (md.take 100) "Analyzed Image"
                  | none => "Analyzed Image")

/-! ## The background processors as document-state machines

Each processor (`processImageAsync`, `processTextFileAsync`,
`processDocumentAsync`) is a straight-line sequence of awaited calls; some of
them persist an update to the document's row, the rest are external calls
(vision/embedding/RPC/insert) that leave the row untouched.  Any awaited call
may throw; the first throw jumps to the catch-handler, which persists
`status = 'error'` with the message.  `failAt` picks the first throwing call
(`none` = the run completes); `errOk` says whether the catch-handler's own
update persists (it too is an awaited call). -/

/-- The fields of a `documents` row the processors read or write. -/
structure DocRec where
  status : Status
  extracted_text : Option String
  title : Option String
  description : Option String
  content_type : Option String
  confidence_score : Option Rat
  word_count : Option Nat
  character_count : Option Nat
  processing_error : Option String
  processed_at : Option Nat
deriving DecidableEq, Repr

/-- One awaited call of a processor: either a persisted `documents` update or
an external call that does not touch the row. -/
inductive Step where
  | update (f : DocRec → DocRec)
  | external

/-- The catch-handler update
`{ status: 'error', processing_error: message }`. -/
def errorUpdate (msg : String) (d : DocRec) : DocRec :=
  { d with status := .error, processing_error := some msg }

/-- The successive persisted states of the document row (excluding the
starting state) when the steps run with the first throw at index `failAt`. -/
def traceFrom (msg : String) (errOk : Bool) :
    DocRec → List Step → Option Nat → List DocRec
  | _, [], _ => []
  | d, _ :: _, some 0 => if errOk then [errorUpdate msg d] else []
  | d, .update f :: rest, fa => f d :: traceFrom msg errOk (f d) rest (fa.map (· - 1))
  | d, .external :: rest, fa => traceFrom msg errOk d rest (fa.map (· - 1))

/-- All persisted states, the starting one included. -/
def fullTrace (msg : String) (errOk : Bool) (d : DocRec) (steps : List Step)
    (failAt : Option Nat) : List DocRec :=
  d :: traceFrom msg errOk d steps failAt

/-- The final document state of a run that completes without throwing. -/
def runUpdates : DocRec → List Step → DocRec
  | d, [] => d
  | d, .update f :: rest => runUpdates (f d) rest
  | d, .external :: rest => runUpdates d rest

/-- Embedding of `update({ status: 'processing' })`. -/
def setProcessing (d : DocRec) : DocRec := { d with status := .processing }

/-- The analysis update of `processImageAsync` (src/lib/storage-debug.ts
lines 414–434): extracted text, title, description, content type, confidence
(`analysis.confidence || 0.8`), `status = 'chunking'` and the counts.
`sc` is the `searchableContent` string. -/
def imageAnalysisUpdate (a : ImageAnalysis) (sc : String) (d : DocRec) : DocRec :=
  { d with
      extracted_text := some sc
      title := some (imageTitleOf a)
      description := some (strOr a.main_description "")
      content_type := some "image"
      confidence_score := some (ratOr a.confidence (4 / 5 : Rat))
      status := .chunking
      word_count := some (jsWordCount sc)
      character_count := some sc.length }

/-- Embedding of `update({ status: 'processed', processed_at: new Date().toISOString() })`. -/
def setProcessedAt (now : Nat) (d : DocRec) : DocRec :=
  { d with status := .processed, processed_at := some now }

/-- The extraction update of `processTextFileAsync` (lines 513–522). -/
def textExtractUpdate (text : String) (d : DocRec) : DocRec :=
  { d with
      extracted_text := some text
      content_type := some "text"
      status := .chunking
      word_count := some (jsWordCount text)
      character_count := some text.length }

/-- The extraction update of `processDocumentAsync` (lines 619–628). -/
def docExtractUpdate (text : String) (d : DocRec) : DocRec :=
  { d with
      extracted_text := some text
      content_type := some "document"
      status := .chunking
      word_count := some (jsWordCount text)
      character_count := some text.length }

/-- Embedding of `update({ status: 'embedding' })` (lines 649–652). -/
def setEmbedding (d : DocRec) : DocRec := { d with status := .embedding }

/-- The final update of `processDocumentAsync` (lines 688–700): status
`processed`, title and description from the generated summary,
`processed_at`. -/
def docProcessedUpdate (summaryTitle summaryText : String) (now : Nat)
    (d : DocRec) : DocRec :=
  { d with
      status := .processed
      title := some summaryTitle
      description := some summaryText
      processed_at := some now }

/-- Number of `add_document_tag` RPC calls made for `analysis.tags`
(lines 437–448: first 20 tags, non-empty strings of length > 1). -/
def tagCallCount (a : ImageAnalysis) : Nat :=
  match a.tags with
  | some l => ((l.take 20).filter fun t => decide (t.length > 1)).length
  | none => 0

/-- Number of `add_document_tag` RPC calls made for `analysis.categories`
(lines 451–462: first 5 categories, truthy strings). -/
def categoryCallCount (a : ImageAnalysis) : Nat :=
  match a.categories with
  | some l => ((l.take 5).filter fun c => decide (c ≠ "")).length
  | none => 0

/-- Embedding of `processImageAsync` (src/lib/storage-debug.ts lines 320–498) as its
sequence of awaited calls: status→processing, the vision call, the analysis
update (status→chunking), one RPC per accepted tag and category, the
`update_document_auto_tags` RPC, `createChunksForDocument` (document lookup,
splitter, then embed+insert per chunk), and the final processed update. -/
def processImageAsyncSteps (parseJson : String → Option ImageAnalysis)
    (analysisText : String) (nChunks now : Nat) : List Step :=
  let analysis := parseVisionAnalysis parseJson analysisText
  let sc := searchableContentOf analysis
  [Step.update setProcessing, Step.external,
   Step.update (imageAnalysisUpdate analysis sc)] ++
  List.replicate (tagCallCount analysis) Step.external ++
  List.replicate (categoryCallCount analysis) Step.external ++
  [Step.external] ++
  List.replicate (2 + 2 * nChunks) Step.external ++
  [Step.update (setProcessedAt now)]

/-- Embedding of `processTextFileAsync` (lines 502–547): status→processing, `file.text()`,
the extraction update (status→chunking), `createChunksForDocument`, and the
final processed update. -/
def processTextFileAsyncSteps (text : String) (nChunks now : Nat) : List Step :=
  [Step.update setProcessing, Step.external,
   Step.update (textExtractUpdate text)] ++
  List.replicate (2 + 2 * nChunks) Step.external ++
  [Step.update (setProcessedAt now)]

/-- Embedding of `processDocumentAsync` (lines 607–712): status→processing,
`extractTextFromFile` (throws for unsupported MIME types), the extraction
update (status→chunking), the splitter, status→embedding, then per chunk
embed + user lookup + insert, the summary generation, and the final processed
update carrying the summary. -/
def processDocumentAsyncSteps (text : String) (nChunks now : Nat)
    (summaryTitle summaryText : String) : List Step :=
  [Step.update setProcessing, Step.external,
   Step.update (docExtractUpdate text), Step.external,
   Step.update setEmbedding] ++
  List.replicate (3 * nChunks) Step.external ++
  [Step.external,
   Step.update (docProcessedUpdate summaryTitle summaryText now)]

/-! ## Chunk persistence (`createChunksForDocument`, src/lib/storage-debug.ts
lines 557–604, and the identical inline loop of `processDocumentAsync`,
lines 655–682) -/

/-- A persisted `document_chunks` row. -/
structure PersistedChunk where
  document_id : Nat
  user_id : Nat
  chunk_index : Nat
  chunk_text : String
  embedding : Emb
  embedded_at : Nat
deriving DecidableEq, Repr

/-- The `for (let i = 0; i < chunks.length; i++)` loop: embed chunk `i`
(`embedRes`, `none` = the embedding call throws) then insert the row with
`chunk_index = i` (`insertOk`, `false` = the insert throws).  A throw aborts
the loop; rows inserted before it stay persisted.  Returns the persisted rows
in insertion order and whether the loop completed. -/
def chunkInsertLoop (embedRes : String → Option Emb) (insertOk : Nat → Bool)
    (docId uid now : Nat) : Nat → List String → List PersistedChunk × Bool
  | _, [] => ([], true)
  | i, t :: rest =>
    match embedRes t with
    | none => ([], false)
    | some v =>
      if insertOk i then
        let r := chunkInsertLoop embedRes insertOk docId uid now (i + 1) rest
        ({ document_id := docId, user_id := uid, chunk_index := i,
           chunk_text := t, embedding := v, embedded_at := now } :: r.1, r.2)
      else ([], false)

/-- Embedding of `createChunksForDocument`: run the insert loop over the splitter's output
in split order, starting at index 0. -/
def createChunksForDocument (embedRes : String → Option Emb)
    (insertOk : Nat → Bool) (docId uid now : Nat) (chunks : List String) :
    List PersistedChunk × Bool :=
  chunkInsertLoop embedRes insertOk docId uid now 0 chunks

/-- The status-transition relation asserted by the spec: forward moves along
`uploaded → processing → (chunking | embedding) → … → processed`, plus a jump
to `error` from any non-terminal state; `processed` and `error` have no
outgoing edges. -/
def allowedTransition (a b : Status) : Bool :=
  match a, b with
  | .uploaded, .processing => true
  | .processing, .chunking => true
  | .processing, .embedding => true
  | .chunking, .embedding => true
  | .chunking, .processed => true
  | .embedding, .processed => true
  | .uploaded, .error => true
  | .processing, .error => true
  | .chunking, .error => true
  | .embedding, .error => true
  | _, _ => false

/-- One step of the persisted status sequence: either the status is unchanged
(an update that does not touch it) or an allowed transition is taken. -/
def goodStep (a b : Status) : Prop := a = b ∨ allowedTransition a b = true

instance (a b : Status) : Decidable (goodStep a b) :=
  inferInstanceAs (Decidable (a = b ∨ allowedTransition a b = true))

/-! ## The search server action `searchDocuments`
(src/lib/storage-debug.ts lines 744–867) -/

/-- A `search_queries` row. -/
structure SearchQueryRow where
  id : Nat
  user_id : Nat
  query_text : String
  query_type : String
  similarity_threshold : Rat
  max_results : Nat
  results_count : Nat
  response_time_ms : Option Nat
deriving DecidableEq, Repr

/-- A `search_results` row (rank positions start at 1). -/
structure SearchResultRow where
  search_query_id : Nat
  chunk_id : Nat
  similarity_score : Rat
  rank_position : Nat
deriving DecidableEq, Repr

/-- The store state the search action reads and writes. -/
structure SearchState where
  db : SearchDB
  queries : List SearchQueryRow
  results : List SearchResultRow
deriving Repr

/-- The value `searchDocuments` resolves with (`SearchResponse` after
`SearchResponseSchema.parse`). -/
structure SearchResponse where
  success : Bool
  results : List SearchHit
  query_id : Option Nat
  total_results : Option Nat
  response_time_ms : Option Nat
  error : Option String
deriving Repr

/-- Outcomes of the awaited infrastructure calls inside `searchDocuments`:
`none` means the call succeeds (an RPC then evaluates the corresponding SQL
function against the store), `some msg` means it fails with that message. -/
structure SearchOutcomes where
  embedErr : Option String
  insertQueryErr : Option String
  enhancedErr : Option String
  basicErr : Option String

/-- Embedding of `SearchFormSchema.parse` (src/lib/schemas.ts lines 177–184): query length
3–500, recognised search type, `max_results` 1–50, threshold in [0,1]. -/
def searchFormValid (query : String) (searchType : String) (maxResults : Nat)
    (thr : Rat) : Bool :=
  decide (3 ≤ query.length) && decide (query.length ≤ 500) &&
  (searchType == "semantic" || searchType == "keyword" || searchType == "hybrid") &&
  decide (1 ≤ maxResults) && decide (maxResults ≤ 50) &&
  decide (0 ≤ thr) && decide (thr ≤ 1)

/-- A failure response: the outer catch produces
`{ success: false, error: message }` (no data). -/
def searchFailResp (e : String) : SearchResponse :=
  { success := false, results := [], query_id := none, total_results := none,
    response_time_ms := none, error := some e }

/-- The data-dependent part of the final `SearchResponseSchema.parse`:
each result's `similarity` must lie in [0,1] (`SearchResultSchema`,
src/lib/schemas.ts line 77).  The remaining schema constraints hold by
construction. -/
def respResultsValid (rs : List SearchHit) : Bool :=
  rs.all fun h => decide (0 ≤ h.similarity) && decide (h.similarity ≤ 1)

/-- The tail of `searchDocuments` once `searchResults` is known (lines
823–858): backfill `results_count` and `response_time_ms` on the
`search_queries` row, insert one `search_results` row per hit with 1-based
rank, then build and validate the response. -/
def searchFinish (rs : List SearchHit) (qid rt : Nat) (st : SearchState) :
    SearchResponse × SearchState :=
  let st1 : SearchState :=
    { st with
        queries := st.queries.map fun q =>
          if q.id == qid then
            { q with results_count := rs.length, response_time_ms := some rt }
          else q }
  let newRows : List SearchResultRow :=
    rs.mapIdx fun i h =>
      { search_query_id := qid, chunk_id := h.chunk_id,
        similarity_score := h.similarity, rank_position := i + 1 }
  let st2 : SearchState := { st1 with results := st1.results ++ newRows }
  if respResultsValid rs then
    ({ success := true, results := rs, query_id := some qid,
       total_results := some rs.length, response_time_ms := some rt,
       error := none }, st2)
  else
    (searchFailResp "SearchResponseSchema validation failed", st2)

/-- Embedding of `searchDocuments(formData)` — src/lib/storage-debug.ts lines 744–867.
Validates the form, embeds the query (`qe` is the embedding the capability
would return; `oc.embedErr` a failure of that call), records the
`search_queries` row, then attempts `enhanced_similarity_search` with
`content_types: null, required_tags: null`; on an RPC error it falls back to
`similarity_search` with the same threshold and limit, and if both RPCs fail
the whole action fails with an explicit wrapped error message.  `rt` is the
measured response time. -/
def searchDocuments (dist : Emb → Emb → Rat) (qe : Emb) (query : String)
    (userId : Nat) (searchType : String) (maxResults : Nat) (thr : Rat)
    (oc : SearchOutcomes) (rt : Nat) (st : SearchState) :
    SearchResponse × SearchState :=
  if !(searchFormValid query searchType maxResults thr) then
    (searchFailResp "SearchFormSchema validation failed", st)
  else
    match oc.embedErr with
    | some e => (searchFailResp e, st)
    | none =>
      match oc.insertQueryErr with
      | some e => (searchFailResp ("Search query creation failed: " ++ e), st)
      | none =>
        let qid := st.queries.length
        let qrow : SearchQueryRow :=
          { id := qid, user_id := userId, query_text := query,
            query_type := searchType, similarity_threshold := thr,
            max_results := maxResults, results_count := 0,
            response_time_ms := none }
        let st1 := { st with queries := st.queries ++ [qrow] }
        match oc.enhancedErr with
        | none =>
          searchFinish
            (enhanced_similarity_search dist st1.db qe userId thr maxResults none none)
            qid rt st1
        | some _ =>
          match oc.basicErr with
          | some b =>
            (searchFailResp
              ("Similarity search failed: Both enhanced and basic search failed: " ++ b),
             st1)
          | none =>
            searchFinish (similarity_search dist st1.db qe userId thr maxResults)
              qid rt st1

/-! ## Shared helper lemmas -/

theorem enhancedWhere_none_none (dist : Emb → Emb → Rat) (qe : Emb) (uid : Nat)
    (thr : Rat) :
    enhancedWhere dist qe uid thr none none = basicWhere dist qe uid thr := by
  funext p
  simp [enhancedWhere, basicWhere, contentTypeOk, tagsOverlapOk]

theorem basicWhere_mono (dist : Emb → Emb → Rat) (qe : Emb) (uid : Nat)
    {thr₁ thr₂ : Rat} (h : thr₁ ≤ thr₂) (p : ChunkRow × DocRow)
    (hp : basicWhere dist qe uid thr₂ p = true) :
    basicWhere dist qe uid thr₁ p = true := by
  simp only [basicWhere, Bool.and_eq_true] at hp ⊢
  refine ⟨hp.1, ?_⟩
  rcases hme : p.1.embedding with _ | e
  · rw [hme] at hp; exact absurd hp.2 (by simp)
  · rw [hme] at hp
    simp only [decide_eq_true_eq] at hp ⊢
    exact lt_of_le_of_lt h hp.2

theorem enhancedWhere_mono (dist : Emb → Emb → Rat) (qe : Emb) (uid : Nat)
    {thr₁ thr₂ : Rat} (h : thr₁ ≤ thr₂) (cts req : Option (List String))
    (p : ChunkRow × DocRow)
    (hp : enhancedWhere dist qe uid thr₂ cts req p = true) :
    enhancedWhere dist qe uid thr₁ cts req p = true := by
  simp only [enhancedWhere, Bool.and_eq_true] at hp ⊢
  refine ⟨⟨⟨hp.1.1.1, ?_⟩, hp.1.2⟩, hp.2⟩
  rcases hme : p.1.embedding with _ | e
  · rw [hme] at hp; exact absurd hp.1.1.2 (by simp)
  · rw [hme] at hp
    simp only [decide_eq_true_eq] at hp ⊢
    exact lt_of_le_of_lt h hp.1.1.2

theorem key_trans (dist : Emb → Emb → Rat) (qe : Emb) :
    ∀ a b c : ChunkRow × DocRow,
      decide (rowDist dist qe a ≤ rowDist dist qe b) = true →
      decide (rowDist dist qe b ≤ rowDist dist qe c) = true →
      decide (rowDist dist qe a ≤ rowDist dist qe c) = true := by
  intro a b c hab hbc
  simp only [decide_eq_true_eq] at hab hbc ⊢
  exact le_trans hab hbc

theorem key_total (dist : Emb → Emb → Rat) (qe : Emb) :
    ∀ a b : ChunkRow × DocRow,
      (decide (rowDist dist qe a ≤ rowDist dist qe b) ||
       decide (rowDist dist qe b ≤ rowDist dist qe a)) = true := by
  intro a b
  simp [le_total]

/-- Rows returned by `enhanced_similarity_search` originate in the joined
corpus and satisfy the WHERE clause. -/
theorem mem_enhanced_similarity_search (dist : Emb → Emb → Rat) (db : SearchDB)
    (qe : Emb) (uid : Nat) (thr : Rat) (lim : Nat)
    (cts req : Option (List String)) (h : SearchHit)
    (hh : h ∈ enhanced_similarity_search dist db qe uid thr lim cts req) :
    ∃ p, p ∈ joinRows db ∧ enhancedWhere dist qe uid thr cts req p = true ∧
      h = toHit dist qe p := by
  simp only [enhanced_similarity_search, List.mem_map] at hh
  obtain ⟨p, hp, rfl⟩ := hh
  have hp' : p ∈ ((joinRows db).filter
      (enhancedWhere dist qe uid thr cts req)).mergeSort
      (fun a b => decide (rowDist dist qe a ≤ rowDist dist qe b)) :=
    (List.take_sublist _ _).mem hp
  rw [List.mem_mergeSort, List.mem_filter] at hp'
  exact ⟨p, hp'.1, hp'.2, rfl⟩

/-- Similarities returned by either search function lie in `(thr, 1]`
whenever the distance operator is nonnegative. -/
theorem similarity_bounds (dist : Emb → Emb → Rat) (db : SearchDB) (qe : Emb)
    (uid : Nat) (thr : Rat) (lim : Nat) (cts req : Option (List String))
    (hdist : ∀ e₁ e₂, 0 ≤ dist e₁ e₂) (h : SearchHit)
    (hh : h ∈ enhanced_similarity_search dist db qe uid thr lim cts req) :
    thr < h.similarity ∧ h.similarity ≤ 1 := by
  obtain ⟨p, _, hw, rfl⟩ := mem_enhanced_similarity_search dist db qe uid thr lim cts req h hh
  simp only [enhancedWhere, Bool.and_eq_true] at hw
  rcases hme : p.1.embedding with _ | e
  · rw [hme] at hw; exact absurd hw.1.1.2 (by simp)
  · rw [hme] at hw
    have hgt : 1 - dist e qe > thr := by
      have := hw.1.1.2; simpa using this
    constructor
    · simpa [toHit, rowDist, hme] using hgt
    · have : 0 ≤ dist e qe := hdist e qe
      simp only [toHit, rowDist, hme]
      linarith

/-- The function `similarity_search` coincides with `enhanced_similarity_search` applied to NULL filters. -/
theorem similarity_search_eq_enhanced (dist : Emb → Emb → Rat) (db : SearchDB)
    (qe : Emb) (uid : Nat) (thr : Rat) (lim : Nat) :
    similarity_search dist db qe uid thr lim =
      enhanced_similarity_search dist db qe uid thr lim none none := by
  simp [similarity_search, enhanced_similarity_search, enhancedWhere_none_none]

/-! ## C9 — the enhanced path with NULL filters coincides with the basic
fallback path -/

/-- C9: `searchDocuments` always invokes `enhanced_similarity_search` with
`content_types = null` and `required_tags = null` (that is how the call is
embedded in its definition), under NULL filters the enhanced lookup returns
exactly the rows of the basic lookup in the same order, and consequently the
enhanced path and the basic fallback path of `searchDocuments` produce
identical responses and store states. -/
theorem enhanced_null_filters_equiv_basic :
    (∀ (dist : Emb → Emb → Rat) (db : SearchDB) (qe : Emb) (uid : Nat)
       (thr : Rat) (lim : Nat),
       enhanced_similarity_search dist db qe uid thr lim none none =
         similarity_search dist db qe uid thr lim) ∧
    (∀ (dist : Emb → Emb → Rat) (qe : Emb) (query : String) (uid : Nat)
       (ty : String) (mr : Nat) (thr : Rat) (b : Option String) (e : String)
       (rt : Nat) (st : SearchState),
       searchDocuments dist qe query uid ty mr thr
           { embedErr := none, insertQueryErr := none,
             enhancedErr := none, basicErr := b } rt st =
         searchDocuments dist qe query uid ty mr thr
           { embedErr := none, insertQueryErr := none,
             enhancedErr := some e, basicErr := none } rt st) := by
  constructor
  · intro dist db qe uid thr lim
    exact (similarity_search_eq_enhanced dist db qe uid thr lim).symm
  · intro dist qe query uid ty mr thr b e rt st
    simp [searchDocuments, similarity_search_eq_enhanced]

/-! ## C6 — the result count is antitone in the similarity threshold -/

theorem length_filter_mono {α : Type} {p q : α → Bool}
    (h : ∀ a, p a = true → q a = true) (l : List α) :
    (l.filter p).length ≤ (l.filter q).length :=
  (List.monotone_filter_right l h).length_le

theorem search_length_eq (dist : Emb → Emb → Rat) (db : SearchDB) (qe : Emb)
    (uid : Nat) (thr : Rat) (lim : Nat) (cts req : Option (List String)) :
    (enhanced_similarity_search dist db qe uid thr lim cts req).length =
      min lim ((joinRows db).filter (enhancedWhere dist qe uid thr cts req)).length := by
  simp [enhanced_similarity_search]

/-- C6: for a fixed query embedding, user and corpus, raising the similarity
threshold never increases the number of rows returned, for the basic and for
the enhanced similarity lookup alike. -/
theorem search_count_antitone (dist : Emb → Emb → Rat) (db : SearchDB)
    (qe : Emb) (uid : Nat) (lim : Nat) (cts req : Option (List String))
    {thr₁ thr₂ : Rat} (h : thr₁ ≤ thr₂) :
    (similarity_search dist db qe uid thr₂ lim).length ≤
      (similarity_search dist db qe uid thr₁ lim).length ∧
    (enhanced_similarity_search dist db qe uid thr₂ lim cts req).length ≤
      (enhanced_similarity_search dist db qe uid thr₁ lim cts req).length := by
  have main : ∀ cts' req' : Option (List String),
      (enhanced_similarity_search dist db qe uid thr₂ lim cts' req').length ≤
        (enhanced_similarity_search dist db qe uid thr₁ lim cts' req').length := by
    intro cts' req'
    rw [search_length_eq, search_length_eq]
    exact min_le_min (le_refl lim)
      (length_filter_mono (enhancedWhere_mono dist qe uid h cts' req') _)
  refine ⟨?_, main cts req⟩
  rw [similarity_search_eq_enhanced, similarity_search_eq_enhanced]
  exact main none none

/-- C6 witness: a concrete instantiation. -/
theorem search_count_antitone_witness :
    ((1 : Rat) / 4 ≤ (3 : Rat) / 4) ∧
    (similarity_search (fun _ _ => 0) { documents := [], chunks := [] } []
        7 ((3 : Rat) / 4) 10).length ≤
      (similarity_search (fun _ _ => 0) { documents := [], chunks := [] } []
        7 ((1 : Rat) / 4) 10).length :=
  ⟨by norm_num,
   (search_count_antitone (fun _ _ => 0) { documents := [], chunks := [] } []
     7 10 none none (by norm_num)).1⟩

/-! ## C3 — characterization of the filtered similarity lookup -/

/-- C3: `enhanced_similarity_search` returns exactly the user's chunks with a
non-null embedding and cosine similarity (1 − cosine distance) strictly above
the threshold that pass the optional content-type and tag filters: every
returned row arises from such a chunk/document pair; when the limit does not
cut the result, every qualifying pair is returned; the rows are ordered by
ascending cosine distance (descending similarity); and the result size is the
qualifying-row count truncated to `max_results`. -/
theorem enhanced_search_characterization (dist : Emb → Emb → Rat)
    (db : SearchDB) (qe : Emb) (uid : Nat) (thr : Rat) (lim : Nat)
    (cts req : Option (List String)) :
    ((enhanced_similarity_search dist db qe uid thr lim cts req).length =
      min lim ((joinRows db).filter (enhancedWhere dist qe uid thr cts req)).length) ∧
    (∀ h ∈ enhanced_similarity_search dist db qe uid thr lim cts req,
      ∃ dc d, (dc, d) ∈ joinRows db ∧ dc.user_id = uid ∧
        (∃ e, dc.embedding = some e ∧ thr < 1 - dist e qe) ∧
        contentTypeOk cts d = true ∧ tagsOverlapOk req d = true ∧
        h = toHit dist qe (dc, d)) ∧
    (((joinRows db).filter (enhancedWhere dist qe uid thr cts req)).length ≤ lim →
      ∀ p ∈ joinRows db, enhancedWhere dist qe uid thr cts req p = true →
        toHit dist qe p ∈ enhanced_similarity_search dist db qe uid thr lim cts req) ∧
    (enhanced_similarity_search dist db qe uid thr lim cts req).Pairwise
      (fun a b => b.similarity ≤ a.similarity) := by
  refine ⟨search_length_eq dist db qe uid thr lim cts req, ?_, ?_, ?_⟩
  · intro h hh
    obtain ⟨⟨dc, d⟩, hpm, hw, rfl⟩ :=
      mem_enhanced_similarity_search dist db qe uid thr lim cts req h hh
    simp only [enhancedWhere, Bool.and_eq_true] at hw
    refine ⟨dc, d, hpm, by simpa using hw.1.1.1, ?_, hw.1.2, hw.2, rfl⟩
    rcases hme : dc.embedding with _ | e
    · rw [hme] at hw; exact absurd hw.1.1.2 (by simp)
    · rw [hme] at hw
      exact ⟨e, rfl, by simpa using hw.1.1.2⟩
  · intro hlen p hp hw
    have hs : ((joinRows db).filter (enhancedWhere dist qe uid thr cts req)).mergeSort
        (fun a b => decide (rowDist dist qe a ≤ rowDist dist qe b)) =
        (((joinRows db).filter (enhancedWhere dist qe uid thr cts req)).mergeSort
          (fun a b => decide (rowDist dist qe a ≤ rowDist dist qe b))).take lim := by
      rw [List.take_of_length_le]
      rw [List.length_mergeSort]
      exact hlen
    unfold enhanced_similarity_search
    rw [← hs]
    exact List.mem_map_of_mem _
      (List.mem_mergeSort.mpr (List.mem_filter.mpr ⟨hp, hw⟩))
  · unfold enhanced_similarity_search
    have hsort := @List.sorted_mergeSort (ChunkRow × DocRow)
      (fun a b => decide (rowDist dist qe a ≤ rowDist dist qe b))
      (key_trans dist qe) (key_total dist qe)
      ((joinRows db).filter (enhancedWhere dist qe uid thr cts req))
    have htake := List.Pairwise.sublist (List.take_sublist lim _) hsort
    refine List.Pairwise.map _ ?_ htake
    intro a b hab
    simp only [decide_eq_true_eq] at hab
    simp only [toHit]
    exact sub_le_sub_left hab 1

/-! ## C4 — persisted chunk indices are contiguous and in split order -/

theorem chunkInsertLoop_spec (embedRes : String → Option Emb)
    (insertOk : Nat → Bool) (docId uid now : Nat) :
    ∀ (texts : List String) (i : Nat),
      ((chunkInsertLoop embedRes insertOk docId uid now i texts).1.map
          (fun c => c.chunk_index) =
        List.range' i (chunkInsertLoop embedRes insertOk docId uid now i texts).1.length) ∧
      ((chunkInsertLoop embedRes insertOk docId uid now i texts).1.map
          (fun c => c.chunk_text) =
        texts.take (chunkInsertLoop embedRes insertOk docId uid now i texts).1.length) ∧
      ((chunkInsertLoop embedRes insertOk docId uid now i texts).2 = true →
        (chunkInsertLoop embedRes insertOk docId uid now i texts).1.length =
          texts.length) := by
  intro texts
  induction texts with
  | nil => intro i; simp [chunkInsertLoop]
  | cons t rest ih =>
    intro i
    rcases hem : embedRes t with _ | v
    · simp [chunkInsertLoop, hem]
    · by_cases hins : insertOk i = true
      · have h1 := (ih (i + 1)).1
        have h2 := (ih (i + 1)).2.1
        have h3 := (ih (i + 1)).2.2
        simp only [chunkInsertLoop, hem, hins, if_true, List.map_cons,
          List.length_cons, List.range'_succ, List.take_succ_cons]
        exact ⟨by rw [h1], by rw [h2], fun hok => by rw [h3 hok]⟩
      · simp [chunkInsertLoop, hem, hins]

/-- C4: the chunk rows persisted by `createChunksForDocument` (equally, the
inline loop of `processDocumentAsync`) carry `chunk_index` values forming the
contiguous zero-based sequence `0..N-1` in the splitter's output order, the
persisted texts being exactly the first `N` split chunks; when the loop
completes, every split chunk is persisted. -/
theorem chunk_indices_contiguous (embedRes : String → Option Emb)
    (insertOk : Nat → Bool) (docId uid now : Nat) (texts : List String) :
    ((createChunksForDocument embedRes insertOk docId uid now texts).1.map
        (fun c => c.chunk_index) =
      List.range (createChunksForDocument embedRes insertOk docId uid now texts).1.length) ∧
    ((createChunksForDocument embedRes insertOk docId uid now texts).1.map
        (fun c => c.chunk_text) =
      texts.take (createChunksForDocument embedRes insertOk docId uid now texts).1.length) ∧
    ((createChunksForDocument embedRes insertOk docId uid now texts).1.length ≤
      texts.length) ∧
    ((createChunksForDocument embedRes insertOk docId uid now texts).2 = true →
      (createChunksForDocument embedRes insertOk docId uid now texts).1.length =
        texts.length) := by
  have h := chunkInsertLoop_spec embedRes insertOk docId uid now texts 0
  refine ⟨?_, h.2.1, ?_, h.2.2⟩
  · rw [List.range_eq_range']
    exact h.1
  · have h2 := congrArg List.length h.2.1
    simp only [List.length_map, List.length_take] at h2
    unfold createChunksForDocument
    omega

/-! ## C5 — tag upsert semantics -/

/-- C5: attaching a tag that the document already has updates the existing
`document_tags` row to `confidence = max(existing, new)` with the new source
kept exactly when the new confidence is strictly higher, creating no tag row
and no additional `document_tags` row (the key multiset is unchanged);
attaching an unseen tag name lazily creates the tag with its lower-cased,
globally unique name and appends a single association row. -/
theorem document_tag_upsert_semantics (tdb : TagDB) (docId : Nat)
    (tagName : String) (conf : Rat) (src : String) :
    (∀ t r, tdb.tags.find? (fun x => x.name == jsToLowerCase tagName) = some t →
      r ∈ tdb.documentTags → r.document_id = docId → r.tag_id = t.id →
      (add_document_tag tdb docId tagName conf src).tags = tdb.tags ∧
      (add_document_tag tdb docId tagName conf src).documentTags.length =
        tdb.documentTags.length ∧
      ({ document_id := r.document_id, tag_id := r.tag_id,
         confidence := max r.confidence conf,
         source := if conf > r.confidence then src else r.source } : DocTagRow) ∈
        (add_document_tag tdb docId tagName conf src).documentTags ∧
      ((add_document_tag tdb docId tagName conf src).documentTags.map
          fun x => (x.document_id, x.tag_id)) =
        tdb.documentTags.map fun x => (x.document_id, x.tag_id)) ∧
    (tdb.tags.find? (fun x => x.name == jsToLowerCase tagName) = none →
      (∀ x ∈ tdb.documentTags, x.tag_id ≠ tdb.nextTagId) →
      (add_document_tag tdb docId tagName conf src).tags =
        tdb.tags ++ [{ id := tdb.nextTagId, name := jsToLowerCase tagName,
                       category := none, description := none }] ∧
      (add_document_tag tdb docId tagName conf src).documentTags =
        tdb.documentTags ++ [{ document_id := docId, tag_id := tdb.nextTagId,
                               confidence := conf, source := src }] ∧
      ((tdb.tags.map fun x => x.name).Nodup →
        ((add_document_tag tdb docId tagName conf src).tags.map
            fun x => x.name).Nodup)) := by
  constructor
  · intro t r hfind hr hd ht
    have hget : get_or_create_tag tdb tagName none none = (t.id, tdb) := by
      simp [get_or_create_tag, hfind]
    have hany : (tdb.documentTags.any
        fun dt => dt.document_id == docId && dt.tag_id == t.id) = true :=
      List.any_eq_true.mpr ⟨r, hr, by simp [hd, ht]⟩
    have hfr : ∀ x : DocTagRow,
        (if x.document_id == docId && x.tag_id == t.id then
          ({ x with confidence := max x.confidence conf,
                    source := if conf > x.confidence then src else x.source } : DocTagRow)
        else x).document_id = x.document_id ∧
        (if x.document_id == docId && x.tag_id == t.id then
          ({ x with confidence := max x.confidence conf,
                    source := if conf > x.confidence then src else x.source } : DocTagRow)
        else x).tag_id = x.tag_id := by
      intro x
      by_cases hc : (x.document_id == docId && x.tag_id == t.id) = true
      · simp [hc]
      · simp [hc]
    refine ⟨?_, ?_, ?_, ?_⟩
    · simp [add_document_tag, hget, hany]
    · simp [add_document_tag, hget, hany]
    · simp only [add_document_tag, hget, hany, if_true]
      have himg := List.mem_map_of_mem (fun dt : DocTagRow =>
        if dt.document_id == docId && dt.tag_id == t.id then
          ({ dt with confidence := max dt.confidence conf,
                     source := if conf > dt.confidence then src else dt.source } : DocTagRow)
        else dt) hr
      have hcond : (r.document_id == docId && r.tag_id == t.id) = true := by
        simp [hd, ht]
      simpa only [hcond, if_true] using himg
    · simp only [add_document_tag, hget, hany, if_true, List.map_map]
      apply List.map_congr_left
      intro x _
      have := hfr x
      simp only [Function.comp_apply]
      rcases this with ⟨h1, h2⟩
      rw [h1, h2]
  · intro hfind hfresh
    have hget : get_or_create_tag tdb tagName none none =
        (tdb.nextTagId,
         { tdb with
            tags := tdb.tags ++
              [{ id := tdb.nextTagId, name := jsToLowerCase tagName,
                 category := none, description := none }]
            nextTagId := tdb.nextTagId + 1 }) := by
      simp [get_or_create_tag, hfind]
    have hany : (tdb.documentTags.any
        fun dt => dt.document_id == docId && dt.tag_id == tdb.nextTagId) = false := by
      rw [List.any_eq_false]
      intro x hx
      simp only [Bool.and_eq_true, beq_iff_eq, not_and]
      intro _
      exact hfresh x hx
    refine ⟨?_, ?_, ?_⟩
    · simp [add_document_tag, hget, hany]
    · simp [add_document_tag, hget, hany]
    · intro hnd
      simp only [add_document_tag, hget, hany, Bool.false_eq_true, if_false,
        List.map_append, List.map_cons, List.map_nil]
      rw [List.nodup_append]
      refine ⟨hnd, List.nodup_singleton _, ?_⟩
      intro a ha hb
      simp only [List.mem_singleton] at hb
      subst hb
      rw [List.mem_map] at ha
      obtain ⟨x, hx, hxn⟩ := ha
      have := List.find?_eq_none.mp hfind x hx
      simp only [beq_iff_eq] at this
      exact this hxn

/-- C5 witness: a concrete run of both branches. -/
theorem document_tag_upsert_semantics_witness :
    (({ tags := [{ id := 1, name := "cat", category := none, description := none }],
        documentTags := [{ document_id := 5, tag_id := 1, confidence := (1 : Rat) / 2,
                           source := "ai" }],
        nextTagId := 2 } : TagDB).tags.find?
          (fun x => x.name == jsToLowerCase "CAT") =
        some { id := 1, name := "cat", category := none, description := none }) ∧
    ({ document_id := 5, tag_id := 1,
       confidence := max ((1 : Rat) / 2) ((3 : Rat) / 4),
       source := if (3 : Rat) / 4 > (1 : Rat) / 2 then "vision" else "ai" } : DocTagRow) ∈
      (add_document_tag
        { tags := [{ id := 1, name := "cat", category := none, description := none }],
          documentTags := [{ document_id := 5, tag_id := 1, confidence := (1 : Rat) / 2,
                             source := "ai" }],
          nextTagId := 2 } 5 "CAT" ((3 : Rat) / 4) "vision").documentTags := by
  constructor
  · decide
  · exact ((document_tag_upsert_semantics
      { tags := [{ id := 1, name := "cat", category := none, description := none }],
        documentTags := [{ document_id := 5, tag_id := 1, confidence := (1 : Rat) / 2,
                           source := "ai" }],
        nextTagId := 2 } 5 "CAT" ((3 : Rat) / 4) "vision").1
      { id := 1, name := "cat", category := none, description := none }
      { document_id := 5, tag_id := 1, confidence := (1 : Rat) / 2, source := "ai" }
      (by decide) (List.mem_singleton.mpr rfl) rfl rfl).2.2.1

/-! ## C8 / C10 — upload validation and response shape -/

theorem uploadLoop_effects (oc : UploadOutcomes) (uid : String) (now : Nat) :
    ∀ (files : List UploadFile) (st : UploadStore) (acc : List CreatedDoc),
      (∀ b ∈ (uploadLoop oc uid now files st acc).1.blobs,
        b ∈ st.blobs ∨ ∃ f ∈ files, b = storageKey now f) ∧
      (∀ d ∈ (uploadLoop oc uid now files st acc).1.documents,
        d ∈ st.documents ∨ ∃ f ∈ files,
          d.original_filename = f.name ∧ d.file_size = f.size ∧
          d.mime_type = f.mime) ∧
      (∃ k, (uploadLoop oc uid now files st acc).1.documents.length =
              st.documents.length + k ∧
            (uploadLoop oc uid now files st acc).1.tasks.length =
              st.tasks.length + k) := by
  intro files
  induction files with
  | nil =>
    intro st acc
    refine ⟨fun b hb => .inl hb, fun d hd => .inl hd, 0, rfl, rfl⟩
  | cons f rest ih =>
    intro st acc
    rcases hse : oc.storageErr f with _ | e
    · rcases hde : oc.dbErr f with _ | e
      · simp only [uploadLoop, hse, hde]
        obtain ⟨ihb, ihd, k, ihk1, ihk2⟩ := ih _ _
        refine ⟨?_, ?_, ?_⟩
        · intro b hb
          rcases ihb b hb with hb' | ⟨g, hg, hkey⟩
          · simp only [List.mem_append, List.mem_singleton] at hb'
            rcases hb' with hb'' | hb''
            · exact .inl hb''
            · exact .inr ⟨f, List.mem_cons_self f rest, hb''⟩
          · exact .inr ⟨g, List.mem_cons_of_mem f hg, hkey⟩
        · intro d hd
          rcases ihd d hd with hd' | ⟨g, hg, hprops⟩
          · simp only [List.mem_append, List.mem_singleton] at hd'
            rcases hd' with hd'' | hd''
            · exact .inl hd''
            · exact .inr ⟨f, List.mem_cons_self f rest, by rw [hd'']; exact ⟨rfl, rfl, rfl⟩⟩
          · exact .inr ⟨g, List.mem_cons_of_mem f hg, hprops⟩
        · refine ⟨k + 1, ?_, ?_⟩
          · rw [ihk1]; simp; omega
          · rw [ihk2]; simp; omega
      · simp only [uploadLoop, hse, hde]
        refine ⟨?_, fun d hd => .inl hd, 0, rfl, rfl⟩
        intro b hb
        simp only [List.mem_append, List.mem_singleton] at hb
        rcases hb with hb' | hb'
        · exact .inl hb'
        · exact .inr ⟨f, List.mem_cons_self f rest, hb'⟩
    · simp only [uploadLoop, hse]
      exact ⟨fun b hb => .inl hb, fun d hd => .inl hd, 0, rfl, rfl⟩

theorem uploadDocuments_effects (files : List UploadFile)
    (userId : Option String) (oc : UploadOutcomes) (now : Nat)
    (st : UploadStore) :
    (∀ b ∈ (uploadDocuments files userId oc now st).2.blobs,
      b ∈ st.blobs ∨ ∃ f ∈ files, b = storageKey now f) ∧
    (∀ d ∈ (uploadDocuments files userId oc now st).2.documents,
      d ∈ st.documents ∨ ∃ f ∈ files,
        d.original_filename = f.name ∧ d.file_size = f.size ∧
        d.mime_type = f.mime) ∧
    (∃ k, (uploadDocuments files userId oc now st).2.documents.length =
            st.documents.length + k ∧
          (uploadDocuments files userId oc now st).2.tasks.length =
            st.tasks.length + k) := by
  unfold uploadDocuments
  by_cases hemp : files.isEmpty
  · simp only [hemp, if_true]
    exact ⟨fun b hb => .inl hb, fun d hd => .inl hd, 0, rfl, rfl⟩
  · simp only [hemp, Bool.false_eq_true, if_false]
    by_cases huid : userId = none ∨ userId = some ""
    · simp only [huid, if_true]
      exact ⟨fun b hb => .inl hb, fun d hd => .inl hd, 0, rfl, rfl⟩
    · simp only [huid, if_false]
      obtain ⟨hb, hd, hk⟩ := uploadLoop_effects oc (userId.getD "") now files st []
      rcases hloop : uploadLoop oc (userId.getD "") now files st [] with ⟨st', r⟩
      rw [hloop] at hb hd hk
      rcases r with e | results
      · exact ⟨hb, hd, hk⟩
      · exact ⟨hb, hd, hk⟩

theorem uploadLoop_success (oc : UploadOutcomes) (uid : String) (now : Nat) :
    ∀ (files : List UploadFile) (st : UploadStore) (acc : List CreatedDoc),
      (∀ f ∈ files, oc.storageErr f = none) →
      (∀ f ∈ files, oc.dbErr f = none) →
      ∃ newDocs newTasks,
        uploadLoop oc uid now files st acc =
          ({ blobs := st.blobs ++ files.map (storageKey now),
             documents := st.documents ++ newDocs,
             tasks := st.tasks ++ newTasks }, .ok (acc ++ newDocs)) ∧
        newDocs.length = files.length ∧
        newTasks.length = files.length ∧
        newDocs.map (fun d => d.original_filename) = files.map (fun f => f.name) := by
  intro files
  induction files with
  | nil =>
    intro st acc _ _
    exact ⟨[], [], by simp [uploadLoop], rfl, rfl, rfl⟩
  | cons f rest ih =>
    intro st acc hs hd
    have hsf := hs f (List.mem_cons_self f rest)
    have hdf := hd f (List.mem_cons_self f rest)
    obtain ⟨nd, nt, hloop, hlen1, hlen2, hnames⟩ :=
      ih _ (acc ++ [uploadDoc uid now st.documents.length f])
        (fun g hg => hs g (List.mem_cons_of_mem f hg))
        (fun g hg => hd g (List.mem_cons_of_mem f hg))
    refine ⟨uploadDoc uid now st.documents.length f :: nd,
      uploadTask st.documents.length f :: nt, ?_, ?_, ?_, ?_⟩
    · simp only [uploadLoop, hsf, hdf]
      rw [hloop]
      simp [uploadDoc, uploadTask, List.append_assoc]
    · simp [hlen1]
    · simp [hlen2]
    · simp [uploadDoc, hnames]

/-- C8: a validation error rejects the upload before any observable effect.
An empty file set fails with `'No files provided'` and a missing (or empty)
user id with `'User ID is required'`, both verbatim and with the store
untouched; a file over the 10 MB client limit is dropped by the size gate
with its verbatim alert, so every blob, document row and background task the
upload produces comes from a file within the limit (tasks and created
documents stay in one-to-one correspondence). -/
theorem upload_validation_rejects_early (files selected : List UploadFile)
    (userId : Option String) (oc : UploadOutcomes) (now : Nat)
    (st : UploadStore) :
    (files = [] →
      uploadDocuments files userId oc now st =
        ({ success := false, document? := none, processing_started := false,
           error := some "No files provided" }, st)) ∧
    (files ≠ [] → (userId = none ∨ userId = some "") →
      uploadDocuments files userId oc now st =
        ({ success := false, document? := none, processing_started := false,
           error := some "User ID is required" }, st)) ∧
    (∀ f ∈ selected, f.size > maxUploadSize →
      tooLargeMsg f ∈ (clientUpload selected userId oc now st).2.2 ∧
      f ∉ (handleFileSelect selected).1 ∧
      (∀ b ∈ (clientUpload selected userId oc now st).2.1.blobs,
        b ∈ st.blobs ∨ ∃ g ∈ selected, g.size ≤ maxUploadSize ∧
          b = storageKey now g) ∧
      (∀ d ∈ (clientUpload selected userId oc now st).2.1.documents,
        d ∈ st.documents ∨ ∃ g ∈ selected, g.size ≤ maxUploadSize ∧
          d.original_filename = g.name ∧ d.file_size = g.size) ∧
      (∃ k, (clientUpload selected userId oc now st).2.1.documents.length =
              st.documents.length + k ∧
            (clientUpload selected userId oc now st).2.1.tasks.length =
              st.tasks.length + k)) := by
  refine ⟨?_, ?_, ?_⟩
  · intro h
    subst h
    simp [uploadDocuments]
  · intro hne huid
    have hemp : files.isEmpty = false := by
      cases files with
      | nil => exact absurd rfl hne
      | cons a l => rfl
    simp [uploadDocuments, hemp, huid]
  · intro f hf hsize
    have hmemValid : f ∉ (handleFileSelect selected).1 := by
      simp only [handleFileSelect, List.mem_filter]
      rintro ⟨-, hcond⟩
      rw [decide_eq_true hsize] at hcond
      exact absurd hcond (by simp)
    have hvalidSize : ∀ g ∈ (handleFileSelect selected).1,
        g ∈ selected ∧ g.size ≤ maxUploadSize := by
      intro g hg
      simp only [handleFileSelect, List.mem_filter] at hg
      refine ⟨hg.1, ?_⟩
      have := hg.2
      simp only [Bool.not_eq_true'] at this
      simpa using this
    have halert : tooLargeMsg f ∈ (handleFileSelect selected).2 := by
      simp only [handleFileSelect]
      exact List.mem_map_of_mem _ (List.mem_filter.mpr ⟨hf, by simp [hsize]⟩)
    unfold clientUpload
    by_cases hemp : (handleFileSelect selected).1.isEmpty
    · simp only [hemp, if_true]
      exact ⟨halert, hmemValid, fun b hb => .inl hb, fun d hd => .inl hd,
        0, rfl, rfl⟩
    · simp only [hemp, Bool.false_eq_true, if_false]
      obtain ⟨heb, hed, hek⟩ :=
        uploadDocuments_effects (handleFileSelect selected).1 userId oc now st
      refine ⟨halert, hmemValid, ?_, ?_, hek⟩
      · intro b hb
        rcases heb b hb with hb' | ⟨g, hg, hkey⟩
        · exact .inl hb'
        · obtain ⟨hgs, hgsz⟩ := hvalidSize g hg
          exact .inr ⟨g, hgs, hgsz, hkey⟩
      · intro d hd
        rcases hed d hd with hd' | ⟨g, hg, h1, h2, _⟩
        · exact .inl hd'
        · obtain ⟨hgs, hgsz⟩ := hvalidSize g hg
          exact .inr ⟨g, hgs, hgsz, h1, h2⟩

/-- C8 witness: concrete empty-file-set rejection. -/
theorem upload_validation_rejects_early_witness :
    uploadDocuments [] (some "u")
        { storageErr := fun _ => none, dbErr := fun _ => none } 0
        { blobs := [], documents := [], tasks := [] } =
      ({ success := false, document? := none, processing_started := false,
         error := some "No files provided" },
       { blobs := [], documents := [], tasks := [] }) :=
  (upload_validation_rejects_early [] [] (some "u")
      { storageErr := fun _ => none, dbErr := fun _ => none } 0
      { blobs := [], documents := [], tasks := [] }).1 rfl

/-- C10: a fully successful upload of N valid files creates one document row
and dispatches one background task per file, but the response's data exposes
only the first created document; the other N−1 documents do not appear in the
response at all (its `data` has a single document slot). -/
theorem upload_returns_first_document_only (files : List UploadFile)
    (userId : Option String) (uid : String) (oc : UploadOutcomes) (now : Nat)
    (st : UploadStore) (hne : files ≠ []) (huid : userId = some uid)
    (hu : uid ≠ "") (hs : ∀ f ∈ files, oc.storageErr f = none)
    (hd : ∀ f ∈ files, oc.dbErr f = none) :
    ∃ newDocs,
      (uploadDocuments files userId oc now st).2.documents =
        st.documents ++ newDocs ∧
      newDocs.length = files.length ∧
      newDocs.map (fun d => d.original_filename) = files.map (fun f => f.name) ∧
      (uploadDocuments files userId oc now st).2.tasks.length =
        st.tasks.length + files.length ∧
      (uploadDocuments files userId oc now st).1.success = true ∧
      (uploadDocuments files userId oc now st).1.document? = newDocs.head? ∧
      (uploadDocuments files userId oc now st).1.processing_started = true := by
  have hemp : files.isEmpty = false := by
    cases files with
    | nil => exact absurd rfl hne
    | cons a l => rfl
  have hcond : ¬(userId = none ∨ userId = some "") := by
    subst huid
    rintro (h | h)
    · exact Option.noConfusion h
    · exact hu (Option.some.injEq _ _ ▸ h)
  obtain ⟨nd, nt, hloop, hlen1, hlen2, hnames⟩ :=
    uploadLoop_success oc (userId.getD "") now files st [] (fun g hg => hs g hg)
      (fun g hg => hd g hg)
  refine ⟨nd, ?_⟩
  unfold uploadDocuments
  simp only [hemp, Bool.false_eq_true, if_false, hcond, hloop]
  simp [hlen1, hlen2, hnames]

/-- C10 witness: two concrete files — both are persisted and dispatched, the
response carries only the first. -/
theorem upload_returns_first_document_only_witness :
    ([({ name := "a.txt", mime := "text/plain", size := 5,
         content := "hello" } : UploadFile),
      { name := "p.png", mime := "image/png", size := 6, content := "" }] ≠
        ([] : List UploadFile)) ∧
    ∃ newDocs,
      (uploadDocuments
          [{ name := "a.txt", mime := "text/plain", size := 5, content := "hello" },
           { name := "p.png", mime := "image/png", size := 6, content := "" }]
          (some "u1") { storageErr := fun _ => none, dbErr := fun _ => none } 99
          { blobs := [], documents := [], tasks := [] }).2.documents =
        ({ blobs := [], documents := [], tasks := [] } : UploadStore).documents ++
          newDocs ∧
      newDocs.length =
        ([{ name := "a.txt", mime := "text/plain", size := 5, content := "hello" },
          { name := "p.png", mime := "image/png", size := 6,
            content := "" }] : List UploadFile).length ∧
      newDocs.map (fun d => d.original_filename) =
        ([{ name := "a.txt", mime := "text/plain", size := 5, content := "hello" },
          { name := "p.png", mime := "image/png", size := 6,
            content := "" }] : List UploadFile).map (fun f => f.name) ∧
      (uploadDocuments
          [{ name := "a.txt", mime := "text/plain", size := 5, content := "hello" },
           { name := "p.png", mime := "image/png", size := 6, content := "" }]
          (some "u1") { storageErr := fun _ => none, dbErr := fun _ => none } 99
          { blobs := [], documents := [], tasks := [] }).2.tasks.length =
        ({ blobs := [], documents := [], tasks := [] } : UploadStore).tasks.length + 2 ∧
      (uploadDocuments
          [{ name := "a.txt", mime := "text/plain", size := 5, content := "hello" },
           { name := "p.png", mime := "image/png", size := 6, content := "" }]
          (some "u1") { storageErr := fun _ => none, dbErr := fun _ => none } 99
          { blobs := [], documents := [], tasks := [] }).1.success = true ∧
      (uploadDocuments
          [{ name := "a.txt", mime := "text/plain", size := 5, content := "hello" },
           { name := "p.png", mime := "image/png", size := 6, content := "" }]
          (some "u1") { storageErr := fun _ => none, dbErr := fun _ => none } 99
          { blobs := [], documents := [], tasks := [] }).1.document? = newDocs.head? ∧
      (uploadDocuments
          [{ name := "a.txt", mime := "text/plain", size := 5, content := "hello" },
           { name := "p.png", mime := "image/png", size := 6, content := "" }]
          (some "u1") { storageErr := fun _ => none, dbErr := fun _ => none } 99
          { blobs := [], documents := [], tasks := [] }).1.processing_started =
        true :=
  ⟨by simp,
   upload_returns_first_document_only
     [{ name := "a.txt", mime := "text/plain", size := 5, content := "hello" },
      { name := "p.png", mime := "image/png", size := 6, content := "" }]
     (some "u1") "u1" { storageErr := fun _ => none, dbErr := fun _ => none } 99
     { blobs := [], documents := [], tasks := [] } (by simp) rfl (by simp)
     (fun _ _ => rfl) (fun _ _ => rfl)⟩

/-! ## Projection lemmas for the document updates -/

@[simp] theorem setProcessing_status (d : DocRec) :
    (setProcessing d).status = Status.processing := rfl

@[simp] theorem setProcessing_processedAt (d : DocRec) :
    (setProcessing d).processed_at = d.processed_at := rfl

@[simp] theorem imageAnalysisUpdate_status (a : ImageAnalysis) (sc : String)
    (d : DocRec) : (imageAnalysisUpdate a sc d).status = Status.chunking := rfl

@[simp] theorem imageAnalysisUpdate_processedAt (a : ImageAnalysis)
    (sc : String) (d : DocRec) :
    (imageAnalysisUpdate a sc d).processed_at = d.processed_at := rfl

@[simp] theorem textExtractUpdate_status (t : String) (d : DocRec) :
    (textExtractUpdate t d).status = Status.chunking := rfl

@[simp] theorem textExtractUpdate_processedAt (t : String) (d : DocRec) :
    (textExtractUpdate t d).processed_at = d.processed_at := rfl

@[simp] theorem docExtractUpdate_status (t : String) (d : DocRec) :
    (docExtractUpdate t d).status = Status.chunking := rfl

@[simp] theorem docExtractUpdate_processedAt (t : String) (d : DocRec) :
    (docExtractUpdate t d).processed_at = d.processed_at := rfl

@[simp] theorem setEmbedding_status (d : DocRec) :
    (setEmbedding d).status = Status.embedding := rfl

@[simp] theorem setEmbedding_processedAt (d : DocRec) :
    (setEmbedding d).processed_at = d.processed_at := rfl

@[simp] theorem setProcessedAt_status (now : Nat) (d : DocRec) :
    (setProcessedAt now d).status = Status.processed := rfl

@[simp] theorem setProcessedAt_processedAt (now : Nat) (d : DocRec) :
    (setProcessedAt now d).processed_at = some now := rfl

@[simp] theorem docProcessedUpdate_status (st sm : String) (now : Nat)
    (d : DocRec) : (docProcessedUpdate st sm now d).status = Status.processed := rfl

@[simp] theorem docProcessedUpdate_processedAt (st sm : String) (now : Nat)
    (d : DocRec) : (docProcessedUpdate st sm now d).processed_at = some now := rfl

@[simp] theorem errorUpdate_status (msg : String) (d : DocRec) :
    (errorUpdate msg d).status = Status.error := rfl

@[simp] theorem errorUpdate_processedAt (msg : String) (d : DocRec) :
    (errorUpdate msg d).processed_at = d.processed_at := rfl

/-! ## Trace computation lemmas -/

theorem traceFrom_some_zero (msg : String) (errOk : Bool) (d : DocRec)
    (s : Step) (rest : List Step) :
    traceFrom msg errOk d (s :: rest) (some 0) =
      if errOk then [errorUpdate msg d] else [] := by
  cases s <;> rfl

theorem traceFrom_update_none (msg : String) (errOk : Bool) (d : DocRec)
    (f : DocRec → DocRec) (rest : List Step) :
    traceFrom msg errOk d (Step.update f :: rest) none =
      f d :: traceFrom msg errOk (f d) rest none := rfl

theorem traceFrom_update_succ (msg : String) (errOk : Bool) (d : DocRec)
    (f : DocRec → DocRec) (rest : List Step) (k : Nat) :
    traceFrom msg errOk d (Step.update f :: rest) (some (k + 1)) =
      f d :: traceFrom msg errOk (f d) rest (some k) := by
  simp [traceFrom]

theorem traceFrom_extern_none (msg : String) (errOk : Bool) (d : DocRec)
    (rest : List Step) :
    traceFrom msg errOk d (Step.external :: rest) none =
      traceFrom msg errOk d rest none := rfl

theorem traceFrom_extern_succ (msg : String) (errOk : Bool) (d : DocRec)
    (rest : List Step) (k : Nat) :
    traceFrom msg errOk d (Step.external :: rest) (some (k + 1)) =
      traceFrom msg errOk d rest (some k) := by
  simp [traceFrom]

theorem traceFrom_nil (msg : String) (errOk : Bool) (d : DocRec)
    (fa : Option Nat) : traceFrom msg errOk d [] fa = [] := rfl

theorem traceFrom_replicate_none (msg : String) (errOk : Bool) :
    ∀ (n : Nat) (rest : List Step) (d : DocRec),
      traceFrom msg errOk d (List.replicate n Step.external ++ rest) none =
        traceFrom msg errOk d rest none := by
  intro n
  induction n with
  | zero => intro rest d; rfl
  | succ n ih =>
    intro rest d
    simp only [List.replicate_succ, List.cons_append]
    rw [traceFrom_extern_none]
    exact ih rest d

theorem traceFrom_replicate_lt (msg : String) (errOk : Bool) :
    ∀ (n k : Nat), k < n → ∀ (rest : List Step) (d : DocRec),
      traceFrom msg errOk d (List.replicate n Step.external ++ rest) (some k) =
        if errOk then [errorUpdate msg d] else [] := by
  intro n
  induction n with
  | zero => intro k h; exact absurd h (Nat.not_lt_zero k)
  | succ n ih =>
    intro k h rest d
    simp only [List.replicate_succ, List.cons_append]
    cases k with
    | zero => exact traceFrom_some_zero msg errOk d _ _
    | succ k' =>
      rw [traceFrom_extern_succ]
      exact ih k' (Nat.lt_of_succ_lt_succ h) rest d

theorem traceFrom_replicate_ge (msg : String) (errOk : Bool) :
    ∀ (n k : Nat), n ≤ k → ∀ (rest : List Step) (d : DocRec),
      traceFrom msg errOk d (List.replicate n Step.external ++ rest) (some k) =
        traceFrom msg errOk d rest (some (k - n)) := by
  intro n
  induction n with
  | zero => intro k _ rest d; simp
  | succ n ih =>
    intro k h rest d
    obtain ⟨k', rfl⟩ : ∃ k', k = k' + 1 := ⟨k - 1, by omega⟩
    have heq : k' + 1 - (n + 1) = k' - n := by omega
    simp only [List.replicate_succ, List.cons_append]
    rw [heq, traceFrom_extern_succ, ih k' (by omega) rest d]

/-- Trace enumeration for a processor of shape
`update f₁; m₁ externals; update f₂; m₂ externals; update f₃`
(the image and text processors). -/
theorem shape3_trace (msg : String) (errOk : Bool) (f1 f2 f3 : DocRec → DocRec)
    (m1 m2 : Nat) (d : DocRec) (fa : Option Nat) :
    traceFrom msg errOk d
        (Step.update f1 :: (List.replicate m1 Step.external ++
          (Step.update f2 :: (List.replicate m2 Step.external ++
            [Step.update f3])))) fa =
      match fa with
      | none => [f1 d, f2 (f1 d), f3 (f2 (f1 d))]
      | some k =>
        if k = 0 then (if errOk then [errorUpdate msg d] else [])
        else if k ≤ m1 + 1 then
          f1 d :: (if errOk then [errorUpdate msg (f1 d)] else [])
        else if k ≤ m1 + m2 + 2 then
          f1 d :: f2 (f1 d) ::
            (if errOk then [errorUpdate msg (f2 (f1 d))] else [])
        else [f1 d, f2 (f1 d), f3 (f2 (f1 d))] := by
  rcases fa with _ | k
  · rw [traceFrom_update_none, traceFrom_replicate_none, traceFrom_update_none,
      traceFrom_replicate_none, traceFrom_update_none, traceFrom_nil]
  · rcases Nat.eq_zero_or_pos k with h0 | h0
    · subst h0
      rw [traceFrom_some_zero]
      simp
    · obtain ⟨k', rfl⟩ : ∃ k', k = k' + 1 := ⟨k - 1, by omega⟩
      rw [traceFrom_update_succ]
      show _ = if k' + 1 = 0 then _ else _
      rw [if_neg (by omega : ¬(k' + 1 = 0))]
      by_cases h1 : k' < m1
      · rw [traceFrom_replicate_lt msg errOk m1 k' h1,
          if_pos (by omega : k' + 1 ≤ m1 + 1)]
      · rw [traceFrom_replicate_ge msg errOk m1 k' (by omega)]
        by_cases h2 : k' - m1 = 0
        · rw [h2, traceFrom_some_zero, if_pos (by omega : k' + 1 ≤ m1 + 1)]
        · obtain ⟨j, hj⟩ : ∃ j, k' - m1 = j + 1 := ⟨k' - m1 - 1, by omega⟩
          rw [hj, traceFrom_update_succ,
            if_neg (by omega : ¬(k' + 1 ≤ m1 + 1))]
          by_cases h3 : j < m2
          · rw [traceFrom_replicate_lt msg errOk m2 j h3,
              if_pos (by omega : k' + 1 ≤ m1 + m2 + 2)]
          · rw [traceFrom_replicate_ge msg errOk m2 j (by omega)]
            by_cases h4 : j - m2 = 0
            · rw [h4, traceFrom_some_zero,
                if_pos (by omega : k' + 1 ≤ m1 + m2 + 2)]
            · obtain ⟨i, hi⟩ : ∃ i, j - m2 = i + 1 := ⟨j - m2 - 1, by omega⟩
              rw [hi, traceFrom_update_succ, traceFrom_nil,
                if_neg (by omega : ¬(k' + 1 ≤ m1 + m2 + 2))]

/-- Trace enumeration for a processor of shape
`update f₁; m₁ externals; update f₂; m₂ externals; update f₃; m₃ externals;
update f₄` (the generic-document processor). -/
theorem shape4_trace (msg : String) (errOk : Bool)
    (f1 f2 f3 f4 : DocRec → DocRec) (m1 m2 m3 : Nat) (d : DocRec)
    (fa : Option Nat) :
    traceFrom msg errOk d
        (Step.update f1 :: (List.replicate m1 Step.external ++
          (Step.update f2 :: (List.replicate m2 Step.external ++
            (Step.update f3 :: (List.replicate m3 Step.external ++
              [Step.update f4])))))) fa =
      match fa with
      | none => [f1 d, f2 (f1 d), f3 (f2 (f1 d)), f4 (f3 (f2 (f1 d)))]
      | some k =>
        if k = 0 then (if errOk then [errorUpdate msg d] else [])
        else if k ≤ m1 + 1 then
          f1 d :: (if errOk then [errorUpdate msg (f1 d)] else [])
        else if k ≤ m1 + m2 + 2 then
          f1 d :: f2 (f1 d) ::
            (if errOk then [errorUpdate msg (f2 (f1 d))] else [])
        else if k ≤ m1 + m2 + m3 + 3 then
          f1 d :: f2 (f1 d) :: f3 (f2 (f1 d)) ::
            (if errOk then [errorUpdate msg (f3 (f2 (f1 d)))] else [])
        else [f1 d, f2 (f1 d), f3 (f2 (f1 d)), f4 (f3 (f2 (f1 d)))] := by
  rcases fa with _ | k
  · rw [traceFrom_update_none, traceFrom_replicate_none, traceFrom_update_none,
      traceFrom_replicate_none, traceFrom_update_none, traceFrom_replicate_none,
      traceFrom_update_none, traceFrom_nil]
  · rcases Nat.eq_zero_or_pos k with h0 | h0
    · subst h0
      rw [traceFrom_some_zero]
      simp
    · obtain ⟨k', rfl⟩ : ∃ k', k = k' + 1 := ⟨k - 1, by omega⟩
      rw [traceFrom_update_succ]
      show _ = if k' + 1 = 0 then _ else _
      rw [if_neg (by omega : ¬(k' + 1 = 0))]
      by_cases h1 : k' < m1
      · rw [traceFrom_replicate_lt msg errOk m1 k' h1,
          if_pos (by omega : k' + 1 ≤ m1 + 1)]
      · rw [traceFrom_replicate_ge msg errOk m1 k' (by omega)]
        by_cases h2 : k' - m1 = 0
        · rw [h2, traceFrom_some_zero, if_pos (by omega : k' + 1 ≤ m1 + 1)]
        · obtain ⟨j, hj⟩ : ∃ j, k' - m1 = j + 1 := ⟨k' - m1 - 1, by omega⟩
          rw [hj, traceFrom_update_succ,
            if_neg (by omega : ¬(k' + 1 ≤ m1 + 1))]
          by_cases h3 : j < m2
          · rw [traceFrom_replicate_lt msg errOk m2 j h3,
              if_pos (by omega : k' + 1 ≤ m1 + m2 + 2)]
          · rw [traceFrom_replicate_ge msg errOk m2 j (by omega)]
            by_cases h4 : j - m2 = 0
            · rw [h4, traceFrom_some_zero,
                if_pos (by omega : k' + 1 ≤ m1 + m2 + 2)]
            · obtain ⟨i, hi⟩ : ∃ i, j - m2 = i + 1 := ⟨j - m2 - 1, by omega⟩
              rw [hi, traceFrom_update_succ,
                if_neg (by omega : ¬(k' + 1 ≤ m1 + m2 + 2))]
              by_cases h5 : i < m3
              · rw [traceFrom_replicate_lt msg errOk m3 i h5,
                  if_pos (by omega : k' + 1 ≤ m1 + m2 + m3 + 3)]
              · rw [traceFrom_replicate_ge msg errOk m3 i (by omega)]
                by_cases h6 : i - m3 = 0
                · rw [h6, traceFrom_some_zero,
                    if_pos (by omega : k' + 1 ≤ m1 + m2 + m3 + 3)]
                · obtain ⟨l, hl⟩ : ∃ l, i - m3 = l + 1 := ⟨i - m3 - 1, by omega⟩
                  rw [hl, traceFrom_update_succ, traceFrom_nil,
                    if_neg (by omega : ¬(k' + 1 ≤ m1 + m2 + m3 + 3))]

/-! ## Canonical forms of the three processor step lists -/

theorem processTextFileAsyncSteps_eq (text : String) (nChunks now : Nat) :
    processTextFileAsyncSteps text nChunks now =
      Step.update setProcessing :: (List.replicate 1 Step.external ++
        (Step.update (textExtractUpdate text) ::
          (List.replicate (2 + 2 * nChunks) Step.external ++
            [Step.update (setProcessedAt now)]))) := by
  simp only [processTextFileAsyncSteps, List.replicate_one, List.cons_append,
    List.nil_append, List.append_assoc]

theorem processImageAsyncSteps_eq (parseJson : String → Option ImageAnalysis)
    (analysisText : String) (nChunks now : Nat) :
    processImageAsyncSteps parseJson analysisText nChunks now =
      Step.update setProcessing :: (List.replicate 1 Step.external ++
        (Step.update (imageAnalysisUpdate (parseVisionAnalysis parseJson analysisText)
            (searchableContentOf (parseVisionAnalysis parseJson analysisText))) ::
          (List.replicate (tagCallCount (parseVisionAnalysis parseJson analysisText) +
              (categoryCallCount (parseVisionAnalysis parseJson analysisText) +
                (1 + (2 + 2 * nChunks)))) Step.external ++
            [Step.update (setProcessedAt now)]))) := by
  simp only [processImageAsyncSteps, List.replicate_add, List.replicate_one,
    List.cons_append, List.nil_append, List.append_assoc]

theorem processDocumentAsyncSteps_eq (text : String) (nChunks now : Nat)
    (summaryTitle summaryText : String) :
    processDocumentAsyncSteps text nChunks now summaryTitle summaryText =
      Step.update setProcessing :: (List.replicate 1 Step.external ++
        (Step.update (docExtractUpdate text) :: (List.replicate 1 Step.external ++
          (Step.update setEmbedding ::
            (List.replicate (3 * nChunks + 1) Step.external ++
              [Step.update (docProcessedUpdate summaryTitle summaryText now)]))))) := by
  simp only [processDocumentAsyncSteps, List.replicate_add, List.replicate_one,
    List.cons_append, List.nil_append, List.append_assoc]

/-- Status-path and `processed_at` properties for any shape-3 processor whose
middle update enters `chunking` without touching `processed_at` and whose
final update enters `processed` setting `processed_at`. -/
theorem shape3_props (msg : String) (errOk : Bool) (f2 f3 : DocRec → DocRec)
    (m1 m2 now : Nat) (d₀ : DocRec) (fa : Option Nat)
    (h₀ : d₀.status = Status.uploaded) (hpat : d₀.processed_at = none)
    (hf2s : ∀ d, (f2 d).status = Status.chunking)
    (hf2p : ∀ d, (f2 d).processed_at = d.processed_at)
    (hf3s : ∀ d, (f3 d).status = Status.processed)
    (hf3p : ∀ d, (f3 d).processed_at = some now) :
    (((fullTrace msg errOk d₀
        (Step.update setProcessing :: (List.replicate m1 Step.external ++
          (Step.update f2 :: (List.replicate m2 Step.external ++
            [Step.update f3])))) fa).map (fun x => x.status)).Chain' goodStep) ∧
    (∀ x ∈ fullTrace msg errOk d₀
        (Step.update setProcessing :: (List.replicate m1 Step.external ++
          (Step.update f2 :: (List.replicate m2 Step.external ++
            [Step.update f3])))) fa,
      (x.processed_at ≠ none ↔ x.status = Status.processed)) := by
  unfold fullTrace
  rcases fa with _ | k <;> rw [shape3_trace] <;> dsimp only <;> constructor
  · simp [List.chain'_cons, goodStep, allowedTransition, h₀, hf2s, hf3s]
  · simp [List.forall_mem_cons, hpat, h₀, hf2p, hf2s, hf3p, hf3s]
  · split_ifs <;>
      simp [List.chain'_cons, goodStep, allowedTransition, h₀, hf2s, hf3s]
  · split_ifs <;>
      simp [List.forall_mem_cons, hpat, h₀, hf2p, hf2s, hf3p, hf3s]

/-- Status-path and `processed_at` properties for any shape-4 processor:
`chunking` update, `embedding` update, then a `processed` update setting
`processed_at`. -/
theorem shape4_props (msg : String) (errOk : Bool) (f2 f3 f4 : DocRec → DocRec)
    (m1 m2 m3 now : Nat) (d₀ : DocRec) (fa : Option Nat)
    (h₀ : d₀.status = Status.uploaded) (hpat : d₀.processed_at = none)
    (hf2s : ∀ d, (f2 d).status = Status.chunking)
    (hf2p : ∀ d, (f2 d).processed_at = d.processed_at)
    (hf3s : ∀ d, (f3 d).status = Status.embedding)
    (hf3p : ∀ d, (f3 d).processed_at = d.processed_at)
    (hf4s : ∀ d, (f4 d).status = Status.processed)
    (hf4p : ∀ d, (f4 d).processed_at = some now) :
    (((fullTrace msg errOk d₀
        (Step.update setProcessing :: (List.replicate m1 Step.external ++
          (Step.update f2 :: (List.replicate m2 Step.external ++
            (Step.update f3 :: (List.replicate m3 Step.external ++
              [Step.update f4])))))) fa).map (fun x => x.status)).Chain' goodStep) ∧
    (∀ x ∈ fullTrace msg errOk d₀
        (Step.update setProcessing :: (List.replicate m1 Step.external ++
          (Step.update f2 :: (List.replicate m2 Step.external ++
            (Step.update f3 :: (List.replicate m3 Step.external ++
              [Step.update f4])))))) fa,
      (x.processed_at ≠ none ↔ x.status = Status.processed)) := by
  unfold fullTrace
  rcases fa with _ | k <;> rw [shape4_trace] <;> dsimp only <;> constructor
  · simp [List.chain'_cons, goodStep, allowedTransition, h₀, hf2s, hf3s, hf4s]
  · simp [List.forall_mem_cons, hpat, h₀, hf2p, hf2s, hf3p, hf3s, hf4p, hf4s]
  · split_ifs <;>
      simp [List.chain'_cons, goodStep, allowedTransition, h₀, hf2s, hf3s, hf4s]
  · split_ifs <;>
      simp [List.forall_mem_cons, hpat, h₀, hf2p, hf2s, hf3p, hf3s, hf4p, hf4s]

/-- C1: for every document and each of the three background processors
(`processImageAsync`, `processTextFileAsync`, `processDocumentAsync`), under
any failure point of any awaited call (`failAt`) and whether or not the
catch-handler's error update itself persists (`errOk`), the persisted status
sequence only moves along
`uploaded → processing → (chunking|embedding) → … → processed` or jumps to
`error` from a non-terminal state (`processed` and `error` have no outgoing
transitions), and in every persisted state `processed_at` is set iff the
status is `processed`. -/
theorem processor_status_transitions
    (parseJson : String → Option ImageAnalysis) (analysisText text : String)
    (nChunks now : Nat) (summaryTitle summaryText : String) (msg : String)
    (errOk : Bool) (failAt : Option Nat) (d₀ : DocRec)
    (h₀ : d₀.status = Status.uploaded) (hpat : d₀.processed_at = none) :
    ∀ steps ∈ [processImageAsyncSteps parseJson analysisText nChunks now,
               processTextFileAsyncSteps text nChunks now,
               processDocumentAsyncSteps text nChunks now summaryTitle summaryText],
      (((fullTrace msg errOk d₀ steps failAt).map
          (fun x => x.status)).Chain' goodStep) ∧
      (∀ x ∈ fullTrace msg errOk d₀ steps failAt,
        (x.processed_at ≠ none ↔ x.status = Status.processed)) := by
  intro steps hsteps
  simp only [List.mem_cons, List.not_mem_nil, or_false] at hsteps
  rcases hsteps with rfl | rfl | rfl
  · rw [processImageAsyncSteps_eq]
    exact shape3_props msg errOk _ _ _ _ now d₀ failAt h₀ hpat
      (fun d => rfl) (fun d => rfl) (fun d => rfl) (fun d => rfl)
  · rw [processTextFileAsyncSteps_eq]
    exact shape3_props msg errOk _ _ _ _ now d₀ failAt h₀ hpat
      (fun d => rfl) (fun d => rfl) (fun d => rfl) (fun d => rfl)
  · rw [processDocumentAsyncSteps_eq]
    exact shape4_props msg errOk _ _ _ _ _ _ now d₀ failAt h₀ hpat
      (fun d => rfl) (fun d => rfl) (fun d => rfl) (fun d => rfl)
      (fun d => rfl) (fun d => rfl)

/-- C1 witness: a concrete run of the text processor that fails at step 3. -/
theorem processor_status_transitions_witness :
    (({ status := Status.uploaded, extracted_text := none, title := none,
        description := none, content_type := none, confidence_score := none,
        word_count := none, character_count := none, processing_error := none,
        processed_at := none } : DocRec).status = Status.uploaded) ∧
    (((fullTrace "boom" true
        { status := Status.uploaded, extracted_text := none, title := none,
          description := none, content_type := none, confidence_score := none,
          word_count := none, character_count := none, processing_error := none,
          processed_at := none }
        (processTextFileAsyncSteps "hi" 1 9) (some 3)).map
          (fun x => x.status)).Chain' goodStep) ∧
    (∀ x ∈ fullTrace "boom" true
        { status := Status.uploaded, extracted_text := none, title := none,
          description := none, content_type := none, confidence_score := none,
          word_count := none, character_count := none, processing_error := none,
          processed_at := none }
        (processTextFileAsyncSteps "hi" 1 9) (some 3),
      (x.processed_at ≠ none ↔ x.status = Status.processed)) := by
  refine ⟨rfl, ?_⟩
  exact processor_status_transitions (fun _ => none) "t" "hi" 1 9 "T" "S"
    "boom" true (some 3)
    { status := Status.uploaded, extracted_text := none, title := none,
      description := none, content_type := none, confidence_score := none,
      word_count := none, character_count := none, processing_error := none,
      processed_at := none } rfl rfl
    (processTextFileAsyncSteps "hi" 1 9) (by simp)

/-! ## C7 — non-JSON vision responses fall back and still reach `processed` -/

theorem runUpdates_update_cons (d : DocRec) (f : DocRec → DocRec)
    (rest : List Step) :
    runUpdates d (Step.update f :: rest) = runUpdates (f d) rest := rfl

theorem runUpdates_replicate (n : Nat) (rest : List Step) (d : DocRec) :
    runUpdates d (List.replicate n Step.external ++ rest) = runUpdates d rest := by
  induction n with
  | zero => rfl
  | succ n ih =>
    simp only [List.replicate_succ, List.cons_append]
    exact ih

/-- C7: when the vision response contains no parseable JSON object (either no
`{...}` match or `JSON.parse` throwing on it), `processImageAsync` uses the
regex fallback: the persisted confidence score is exactly 0.7, the document's
description is the regex-extracted `main_description` section (the whole
response text when that section is absent), and a run with no infrastructure
failure still ends with status `processed`. -/
theorem image_nonjson_fallback_processed
    (parseJson : String → Option ImageAnalysis) (t : String)
    (nChunks now : Nat) (d₀ : DocRec)
    (H : ∀ m, jsonMatch t = some m → parseJson m = none) :
    ((runUpdates d₀ (processImageAsyncSteps parseJson t nChunks now)).status =
      Status.processed) ∧
    ((runUpdates d₀
        (processImageAsyncSteps parseJson t nChunks now)).confidence_score =
      some ((7 : Rat) / 10)) ∧
    (extractSection t "main_description" ≠ "" →
      (runUpdates d₀ (processImageAsyncSteps parseJson t nChunks now)).description =
        some (extractSection t "main_description")) ∧
    (extractSection t "main_description" = "" → t ≠ "" →
      (runUpdates d₀ (processImageAsyncSteps parseJson t nChunks now)).description =
        some t) := by
  have hpa : parseVisionAnalysis parseJson t = fallbackAnalysis t := by
    unfold parseVisionAnalysis
    rcases hj : jsonMatch t with _ | m
    · rfl
    · dsimp only
      rw [H m hj]
  have hrun : runUpdates d₀ (processImageAsyncSteps parseJson t nChunks now) =
      setProcessedAt now (imageAnalysisUpdate (fallbackAnalysis t)
        (searchableContentOf (fallbackAnalysis t)) (setProcessing d₀)) := by
    rw [processImageAsyncSteps_eq, hpa, runUpdates_update_cons,
      runUpdates_replicate, runUpdates_update_cons, runUpdates_replicate,
      runUpdates_update_cons]
    rfl
  rw [hrun]
  refine ⟨rfl, ?_, ?_, ?_⟩
  · show some (ratOr (fallbackAnalysis t).confidence ((4 : Rat) / 5)) = _
    simp only [fallbackAnalysis, ratOr]
    norm_num
  · intro hne
    show some (strOr (fallbackAnalysis t).main_description "") = _
    simp [fallbackAnalysis, strOr, strOrStr, hne]
  · intro he hte
    show some (strOr (fallbackAnalysis t).main_description "") = _
    simp [fallbackAnalysis, strOr, strOrStr, he, hte]

/-- C7 witness: a concrete labelled non-JSON vision response. -/
theorem image_nonjson_fallback_processed_witness :
    ((runUpdates
        { status := Status.uploaded, extracted_text := none, title := none,
          description := none, content_type := none, confidence_score := none,
          word_count := none, character_count := none, processing_error := none,
          processed_at := none }
        (processImageAsyncSteps (fun _ => none)
          "**main_description:** a cat on a mat" 1 9)).status =
      Status.processed) ∧
    ((runUpdates
        { status := Status.uploaded, extracted_text := none, title := none,
          description := none, content_type := none, confidence_score := none,
          word_count := none, character_count := none, processing_error := none,
          processed_at := none }
        (processImageAsyncSteps (fun _ => none)
          "**main_description:** a cat on a mat" 1 9)).confidence_score =
      some ((7 : Rat) / 10)) ∧
    (extractSection "**main_description:** a cat on a mat" "main_description" ≠ "" →
      (runUpdates
        { status := Status.uploaded, extracted_text := none, title := none,
          description := none, content_type := none, confidence_score := none,
          word_count := none, character_count := none, processing_error := none,
          processed_at := none }
        (processImageAsyncSteps (fun _ => none)
          "**main_description:** a cat on a mat" 1 9)).description =
        some (extractSection "**main_description:** a cat on a mat"
          "main_description")) ∧
    (extractSection "**main_description:** a cat on a mat" "main_description" = "" →
      "**main_description:** a cat on a mat" ≠ "" →
      (runUpdates
        { status := Status.uploaded, extracted_text := none, title := none,
          description := none, content_type := none, confidence_score := none,
          word_count := none, character_count := none, processing_error := none,
          processed_at := none }
        (processImageAsyncSteps (fun _ => none)
          "**main_description:** a cat on a mat" 1 9)).description =
        some "**main_description:** a cat on a mat") :=
  image_nonjson_fallback_processed (fun _ => none)
    "**main_description:** a cat on a mat" 1 9
    { status := Status.uploaded, extracted_text := none, title := none,
      description := none, content_type := none, confidence_score := none,
      word_count := none, character_count := none, processing_error := none,
      processed_at := none }
    (fun _ _ => rfl)

/-! ## C2 — fallback to the basic lookup; both failing is an explicit error -/

theorem respResultsValid_similarity (dist : Emb → Emb → Rat) (db : SearchDB)
    (qe : Emb) (uid : Nat) (thr : Rat) (lim : Nat)
    (hdist : ∀ e₁ e₂, 0 ≤ dist e₁ e₂) (hthr : 0 ≤ thr) :
    respResultsValid (similarity_search dist db qe uid thr lim) = true := by
  rw [similarity_search_eq_enhanced]
  unfold respResultsValid
  rw [List.all_eq_true]
  intro h hh
  obtain ⟨hgt, hle⟩ :=
    similarity_bounds dist db qe uid thr lim none none hdist h hh
  simp only [Bool.and_eq_true, decide_eq_true_eq]
  exact ⟨le_trans hthr (le_of_lt hgt), hle⟩

/-- C2: when the enhanced (filtered) RPC fails, `searchDocuments` invokes the
basic `similarity_search` with the same threshold and limit, returns its rows
as the successful response, and backfills the `search_queries` row's
`results_count` from those fallback rows; when both RPCs fail the action
returns an explicit wrapped error message, never a silent empty success. -/
theorem search_fallback_to_basic (dist : Emb → Emb → Rat) (qe : Emb)
    (query : String) (uid : Nat) (ty : String) (mr : Nat) (thr : Rat)
    (e : String) (rt : Nat) (st : SearchState)
    (hdist : ∀ e₁ e₂, 0 ≤ dist e₁ e₂)
    (hvalid : searchFormValid query ty mr thr = true) (hthr : 0 ≤ thr) :
    ((searchDocuments dist qe query uid ty mr thr
        ⟨none, none, some e, none⟩ rt st).1.success = true ∧
     (searchDocuments dist qe query uid ty mr thr
        ⟨none, none, some e, none⟩ rt st).1.results =
       similarity_search dist st.db qe uid thr mr ∧
     (searchDocuments dist qe query uid ty mr thr
        ⟨none, none, some e, none⟩ rt st).1.error = none ∧
     ({ id := st.queries.length, user_id := uid, query_text := query,
        query_type := ty, similarity_threshold := thr, max_results := mr,
        results_count := (similarity_search dist st.db qe uid thr mr).length,
        response_time_ms := some rt } : SearchQueryRow) ∈
       (searchDocuments dist qe query uid ty mr thr
          ⟨none, none, some e, none⟩ rt st).2.queries) ∧
    (∀ b, (searchDocuments dist qe query uid ty mr thr
        ⟨none, none, some e, some b⟩ rt st).1.success = false ∧
      (searchDocuments dist qe query uid ty mr thr
          ⟨none, none, some e, some b⟩ rt st).1.error =
        some ("Similarity search failed: Both enhanced and basic search failed: "
          ++ b)) := by
  constructor
  · have hgate := respResultsValid_similarity dist st.db qe uid thr mr hdist hthr
    simp only [searchDocuments, hvalid, Bool.not_true, Bool.false_eq_true,
      if_false, searchFinish, hgate, if_true]
    refine ⟨trivial, trivial, trivial, ?_⟩
    simp
  · intro b
    simp only [searchDocuments, hvalid, Bool.not_true, Bool.false_eq_true,
      if_false]
    exact ⟨rfl, rfl⟩

/-- C2 witness: a concrete corpus where the enhanced RPC fails and the basic
lookup serves the results. -/
theorem search_fallback_to_basic_witness :
    ((∀ e₁ e₂ : Emb, (0 : Rat) ≤ (fun _ _ => (0 : Rat)) e₁ e₂) ∧
     searchFormValid "hello" "semantic" 10 ((7 : Rat) / 10) = true ∧
     (0 : Rat) ≤ (7 : Rat) / 10) ∧
    ((searchDocuments (fun _ _ => (0 : Rat)) [] "hello" 7 "semantic" 10
        ((7 : Rat) / 10) ⟨none, none, some "boom", none⟩ 5
        { db := { documents := [], chunks := [] }, queries := [], results := [] }
      ).1.success = true ∧
     (searchDocuments (fun _ _ => (0 : Rat)) [] "hello" 7 "semantic" 10
        ((7 : Rat) / 10) ⟨none, none, some "boom", none⟩ 5
        { db := { documents := [], chunks := [] }, queries := [], results := [] }
      ).1.results =
       similarity_search (fun _ _ => (0 : Rat))
         ({ db := { documents := [], chunks := [] }, queries := [],
            results := [] } : SearchState).db [] 7 ((7 : Rat) / 10) 10) := by
  have h := search_fallback_to_basic (fun _ _ => (0 : Rat)) [] "hello" 7
    "semantic" 10 ((7 : Rat) / 10) "boom" 5
    { db := { documents := [], chunks := [] }, queries := [], results := [] }
    (fun _ _ => le_refl 0) (by simp [searchFormValid]; norm_num; decide)
    (by norm_num)
  exact ⟨⟨fun _ _ => le_refl 0, by simp [searchFormValid]; norm_num; decide,
    by norm_num⟩, h.1.1, h.1.2.1⟩

end Fainder

